import Mathlib

/-!
Verification of the reconciliation and alert-evaluation engine of the
craft-docs-proxmox repository (src/craft_proxmox).

The Python source is shallowly embedded as executable Lean definitions:

* Python `float` metric values and thresholds are modelled as `ℚ`
  (real-number semantics; the verified properties are threshold
  comparisons that do not depend on binary rounding).
* Python `int` values (ids, byte counts, Unix timestamps) are `ℤ`.
* `datetime.now().timestamp()` is modelled by threading an explicit
  evaluation time `now : ℤ` (whole seconds) through every function that
  the source lets read the clock.
* `Optional[T]` is `Option T`; Python truthiness of optionals, strings,
  lists and ints is modelled explicitly where the source relies on it.
* Python `str` scanning is done on `String.data : List Char`, with
  faithful re-implementations of the specific `str` methods the source
  uses (`in`, `startswith`, `strip`, `lower`, `capitalize`, `replace`,
  `str.join`, `sorted` as a stable insertion sort).
* Network and document-store I/O is out of scope (spec sections 1 and 6
  treat the HTTP clients and the render/publish adapter as external
  collaborators): the engine is modelled as a pure function from the
  fetched cluster snapshot and the recovered prior-entry map to the list
  of per-resource operations it issues, with I/O assumed to succeed.
  Calendar rendering (`datetime.fromtimestamp(..).strftime`) is
  modelled as a function parameter `fmt_time : ℤ → String`.
-/

namespace CraftProxmox

/-! ## Python string primitives (over `List Char`) -/

/-- Whitespace class of Python `\s` / `str.strip` (ASCII subset). -/
def isPySpace (c : Char) : Bool :=
  c == ' ' || c == '\t' || c == '\n' || c == '\r' || c == '\x0b' || c == '\x0c'

/-- Python substring test `needle in hay` on char lists. -/
def subList (needle : List Char) : List Char → Bool
  | [] => needle.isPrefixOf []
  | c :: t => needle.isPrefixOf (c :: t) || subList needle t

/-- Python `needle in hay` for strings. -/
def containsStr (hay needle : String) : Bool :=
  subList needle.data hay.data

/-- Python `s.startswith(pre)`. -/
def startsWithStr (s pre : String) : Bool :=
  pre.data.isPrefixOf s.data

/-- Python `s.strip()` (ASCII whitespace). -/
def pyStrip (s : String) : String :=
  ⟨((s.data.dropWhile isPySpace).reverse.dropWhile isPySpace).reverse⟩

/-- Python `s.lower()` (ASCII model). -/
def pyLower (s : String) : String :=
  ⟨s.data.map Char.toLower⟩

/-- Python `s.capitalize()` (ASCII model). -/
def pyCapitalize (s : String) : String :=
  match s.data with
  | [] => ""
  | c :: rest => ⟨c.toUpper :: rest.map Char.toLower⟩

/-- Python `sep.join(items)`. -/
def joinWith (sep : String) : List String → String
  | [] => ""
  | [x] => x
  | x :: y :: rest => x ++ sep ++ joinWith sep (y :: rest)

/-- Code-point lexicographic `≤` on char lists (Python `str` comparison
of the lowered keys used by `sorted`). -/
def lexLe : List Char → List Char → Bool
  | [], _ => true
  | _ :: _, [] => false
  | a :: as, b :: bs =>
      if a.toNat < b.toNat then true
      else if b.toNat < a.toNat then false
      else lexLe as bs

/-- Python `s.replace(pat, rep)` on char lists, for nonempty `pat`:
replaces non-overlapping occurrences left to right, never rescanning
the inserted replacement. -/
def pyReplaceL (s pat rep : List Char) : List Char :=
  if h : pat ≠ [] ∧ pat.isPrefixOf s then
    rep ++ pyReplaceL (s.drop pat.length) pat rep
  else
    match s with
    | [] => []
    | c :: s₂ => c :: pyReplaceL s₂ pat rep
termination_by s.length
decreasing_by
  · have hpre : pat <+: s := by
      simpa using List.isPrefixOf_iff_prefix.mp h.2
    have hlen : pat.length ≤ s.length := hpre.length_le
    have hpos : 0 < pat.length := List.length_pos.mpr h.1
    simp only [List.length_drop]
    omega
  · simp

/-- Python `s.replace(pat, rep)` on strings (the empty-pattern case
interleaves the replacement, as Python does). -/
def pyReplace (s pat rep : String) : String :=
  if pat.data = [] then
    ⟨rep.data ++ s.data.foldr (fun c acc => c :: (rep.data ++ acc)) []⟩
  else
    ⟨pyReplaceL s.data pat.data rep.data⟩

/-- Split a char list at its first closing angle bracket, if any. -/
def splitGt : List Char → Option (List Char × List Char)
  | [] => none
  | c :: t => if c = '>' then some ([], t) else (splitGt t).map (fun p => (c :: p.1, p.2))

theorem splitGt_length : ∀ {l b a : List Char}, splitGt l = some (b, a) →
    l.length = b.length + 1 + a.length := by
  intro l
  induction l with
  | nil => intro b a h; simp [splitGt] at h
  | cons c t ih =>
    intro b a h
    simp only [splitGt] at h
    split at h
    · simp only [Option.some.injEq, Prod.mk.injEq] at h
      obtain ⟨hb, ha⟩ := h
      subst hb; subst ha; simp; omega
    · cases hs : splitGt t with
      | none => rw [hs] at h; simp at h
      | some p =>
        rw [hs] at h
        obtain ⟨p1, p2⟩ := p
        simp at h
        obtain ⟨hb, ha⟩ := h
        subst hb; subst ha
        have := ih hs
        simp only [List.length_cons]
        omega

/-- Helper of `strip_html`: the leftmost-match removal pass of the
Python substitution of pattern "angle bracket, one or more non-closing
chars, closing angle bracket" by the empty string. -/
def stripTagsL : List Char → List Char
  | [] => []
  | c :: rest =>
    if c = '<' then
      match h : splitGt rest with
      | some (before, after) =>
          if before.isEmpty then c :: stripTagsL rest else stripTagsL after
      | none => c :: stripTagsL rest
    else c :: stripTagsL rest
termination_by s => s.length
decreasing_by
  all_goals simp
  have := splitGt_length h
  omega

/-- Helper of `strip_html`: collapse whitespace runs to a single space
(the Python substitution of one-or-more whitespace by a space). -/
def collapseWsAux : Bool → List Char → List Char
  | _, [] => []
  | prev, c :: rest =>
    if isPySpace c then
      if prev then collapseWsAux true rest else ' ' :: collapseWsAux true rest
    else c :: collapseWsAux false rest

/-- `strip_html` from sync.py: remove HTML tags, collapse whitespace,
strip. -/
def strip_html (text : String) : String :=
  if text = "" then text
  else pyStrip ⟨collapseWsAux false (stripTagsL text.data)⟩

/-- Truthiness of `Optional[str]`. -/
def optStrTruthy : Option String → Bool
  | some s => s ≠ ""
  | none => false

/-- Truthiness of `Optional[int]`. -/
def optIntTruthy : Option ℤ → Bool
  | some n => n ≠ 0
  | none => false

/-- Truthiness of an optional rational (Python `Optional[float]`). -/
def optRatTruthy : Option ℚ → Bool
  | some q => q ≠ 0
  | none => false

/-! ## Numeric rendering

Python format spec `:.1f` on a double rounds half-to-even on the binary
value; over `ℚ` we model it as rounding half-up to one decimal. The
rendered digits only appear inside presentation strings; no verified
claim depends on them. -/

/-- One-decimal rendering of a rational (model of the `:.1f` format). -/
def fmtQ1 (q : ℚ) : String :=
  let n : ℤ := ⌊q * 10 + 1 / 2⌋
  let m : ℕ := n.natAbs
  (if n < 0 then "-" else "") ++ toString (m / 10) ++ "." ++ toString (m % 10)

/-! ## Data model (models.py) -/

/-- `ResourceStatus` enum. -/
inductive ResourceStatus
  | running | stopped | paused | suspended | unknown
deriving DecidableEq

/-- `.value` of a `ResourceStatus`. -/
def ResourceStatus.value : ResourceStatus → String
  | .running => "running"
  | .stopped => "stopped"
  | .paused => "paused"
  | .suspended => "suspended"
  | .unknown => "unknown"

/-- `AlertSeverity` enum. -/
inductive AlertSeverity
  | info | warning | critical
deriving DecidableEq

/-- `AlertType` enum. -/
inductive AlertType
  | high_cpu | high_memory | low_storage | no_backup | old_backup | stopped
deriving DecidableEq

/-- `ResourceAlert` model. -/
structure ResourceAlert where
  alert_type : AlertType
  severity : AlertSeverity
  message : String
  value : Option ℚ := none
  threshold : Option ℚ := none
deriving DecidableEq

/-- `StoragePool` model. -/
structure StoragePool where
  name : String
  node : String
  storage_type : String
  content : List String := []
  total_bytes : Option ℤ := none
  used_bytes : Option ℤ := none
  available_bytes : Option ℤ := none
  enabled : Bool := true
  shared : Bool := false
deriving DecidableEq

/-- `StoragePool.usage_percent`: defined only when both byte counts are
truthy (present and nonzero), as in the Python `if self.total_bytes and
self.used_bytes:` guard. -/
def StoragePool.usage_percent (p : StoragePool) : Option ℚ :=
  if optIntTruthy p.total_bytes ∧ optIntTruthy p.used_bytes then
    some ((p.used_bytes.getD 0 : ℚ) / (p.total_bytes.getD 0 : ℚ) * 100)
  else none

/-- `StoragePool.free_percent`. -/
def StoragePool.free_percent (p : StoragePool) : Option ℚ :=
  match p.usage_percent with
  | some u => some (100 - u)
  | none => none

/-- `Backup` model. -/
structure Backup where
  vmid : ℤ
  node : String
  storage : String
  filename : String
  size_bytes : Option ℤ := none
  backup_time : Option ℤ := none
  backup_type : String := "vzdump"
  notes : Option String := none
deriving DecidableEq

/-- `Backup.age_days`, with the source's clock read
(`datetime.now().timestamp()`) passed in as `now`. The Python guard
`if self.backup_time:` makes both a missing and a zero timestamp yield
no age. -/
def Backup.age_days (b : Backup) (now : ℤ) : Option ℤ :=
  match b.backup_time with
  | some t => if t ≠ 0 then some ((now - t).fdiv 86400) else none
  | none => none

/-- `BackupInfo` model. -/
structure BackupInfo where
  vmid : ℤ
  backups : List Backup := []
  scheduled_job : Option String := none
deriving DecidableEq

/-- Sort key of `max(self.backups, key=lambda b: b.backup_time or 0)`.
A missing timestamp sorts as 0; a zero timestamp also evaluates to 0. -/
def backupTimeKey (b : Backup) : ℤ :=
  match b.backup_time with
  | some t => t
  | none => 0

/-- `BackupInfo.last_backup`: Python `max` keeps the first maximal
element, replacing the running best only on a strictly greater key. -/
def BackupInfo.last_backup (bi : BackupInfo) : Option Backup :=
  match bi.backups with
  | [] => none
  | b :: rest =>
      some (rest.foldl (fun best x => if backupTimeKey best < backupTimeKey x then x else best) b)

/-- `BackupInfo.last_backup_age_days`. -/
def BackupInfo.last_backup_age_days (bi : BackupInfo) (now : ℤ) : Option ℤ :=
  match bi.last_backup with
  | some b => b.age_days now
  | none => none

/-- `Snapshot` model. -/
structure Snapshot where
  name : String
  description : Option String := none
  snaptime : Option ℤ := none
deriving DecidableEq

/-- `NetworkInterface` model. -/
structure NetworkInterface where
  name : String
  bridge : Option String := none
  mac_address : Option String := none
  ip_address : Option String := none
  gateway : Option String := none
  vlan_tag : Option ℤ := none
  model : Option String := none
deriving DecidableEq

/-- `ProxmoxNode` model (storage pools and memory fields included for
completeness; the verified claims only consult `name`). -/
structure ProxmoxNode where
  name : String
  status : String
  cpu_usage : Option ℚ := none
  memory_used : Option ℤ := none
  memory_total : Option ℤ := none
  uptime : Option ℤ := none
  ip_address : Option String := none
  storage_pools : List StoragePool := []
deriving DecidableEq

/-- `ProxmoxVM` model. -/
structure ProxmoxVM where
  vmid : ℤ
  name : String
  node : String
  status : ResourceStatus
  cpu_cores : Option ℤ := none
  memory_mb : Option ℤ := none
  disk_gb : Option ℚ := none
  ip_addresses : List String := []
  tags : List String := []
  description : Option String := none
  template : Bool := false
  uptime : Option ℤ := none
  cpu_usage : Option ℚ := none
  memory_usage : Option ℚ := none
  os_type : Option String := none
  snapshots : List Snapshot := []
  network_interfaces : List NetworkInterface := []
  disk_info : Option String := none
  backup_info : Option BackupInfo := none
  alerts : List ResourceAlert := []
deriving DecidableEq

/-- `ProxmoxVM.display_name` (`self.name or f"VM-{self.vmid}"`). -/
def ProxmoxVM.display_name (vm : ProxmoxVM) : String :=
  if vm.name ≠ "" then vm.name else "VM-" ++ toString vm.vmid

/-- `ProxmoxVM.has_warnings`. -/
def ProxmoxVM.has_warnings (vm : ProxmoxVM) : Bool :=
  vm.alerts.any (fun a => a.severity == .warning || a.severity == .critical)

/-- `ProxmoxVM.has_critical`. -/
def ProxmoxVM.has_critical (vm : ProxmoxVM) : Bool :=
  vm.alerts.any (fun a => a.severity == .critical)

/-- `ProxmoxVM.snapshot_count` (excludes the `current` marker). -/
def ProxmoxVM.snapshot_count (vm : ProxmoxVM) : ℕ :=
  (vm.snapshots.filter (fun s => s.name ≠ "current")).length

/-- `ProxmoxContainer` model. -/
structure ProxmoxContainer where
  vmid : ℤ
  name : String
  node : String
  status : ResourceStatus
  cpu_cores : Option ℤ := none
  memory_mb : Option ℤ := none
  disk_gb : Option ℚ := none
  ip_addresses : List String := []
  tags : List String := []
  description : Option String := none
  template : Bool := false
  uptime : Option ℤ := none
  cpu_usage : Option ℚ := none
  memory_usage : Option ℚ := none
  os_template : Option String := none
  hostname : Option String := none
  snapshots : List Snapshot := []
  network_interfaces : List NetworkInterface := []
  rootfs_size : Option String := none
  backup_info : Option BackupInfo := none
  alerts : List ResourceAlert := []
deriving DecidableEq

/-- `ProxmoxContainer.display_name`
(`self.name or self.hostname or f"CT-{self.vmid}"`). -/
def ProxmoxContainer.display_name (ct : ProxmoxContainer) : String :=
  if ct.name ≠ "" then ct.name
  else match ct.hostname with
    | some h => if h ≠ "" then h else "CT-" ++ toString ct.vmid
    | none => "CT-" ++ toString ct.vmid

/-- `ProxmoxContainer.has_warnings`. -/
def ProxmoxContainer.has_warnings (ct : ProxmoxContainer) : Bool :=
  ct.alerts.any (fun a => a.severity == .warning || a.severity == .critical)

/-- `ProxmoxContainer.has_critical`. -/
def ProxmoxContainer.has_critical (ct : ProxmoxContainer) : Bool :=
  ct.alerts.any (fun a => a.severity == .critical)

/-- `ProxmoxContainer.snapshot_count`. -/
def ProxmoxContainer.snapshot_count (ct : ProxmoxContainer) : ℕ :=
  (ct.snapshots.filter (fun s => s.name ≠ "current")).length

/-- `ProxmoxCluster` model. -/
structure ProxmoxCluster where
  name : Option String := none
  nodes : List ProxmoxNode := []
  vms : List ProxmoxVM := []
  containers : List ProxmoxContainer := []
deriving DecidableEq

/-- `ProxmoxCluster.total_vms`. -/
def ProxmoxCluster.total_vms (c : ProxmoxCluster) : ℕ := c.vms.length

/-- `ProxmoxCluster.total_containers`. -/
def ProxmoxCluster.total_containers (c : ProxmoxCluster) : ℕ := c.containers.length

/-! ## Configuration (config.py) -/

/-- `AlertConfig` thresholds. -/
structure AlertConfig where
  cpu_warning_threshold : ℚ := 80
  cpu_critical_threshold : ℚ := 95
  memory_warning_threshold : ℚ := 80
  memory_critical_threshold : ℚ := 95
  storage_warning_threshold : ℚ := 20
  storage_critical_threshold : ℚ := 10
  backup_warning_days : ℤ := 7
  backup_critical_days : ℤ := 30
  alert_on_stopped : Bool := false

/-- The default `AlertConfig`. -/
def defaultAlertConfig : AlertConfig := {}

/-- `SyncConfig` behaviour switches consumed by the engine. -/
structure SyncConfig where
  include_templates : Bool := false
  include_stopped : Bool := true
  tag_filter : Option String := none
  node_filter : Option String := none
  group_by : String := "node"
  include_storage : Bool := false
  include_backups : Bool := false
  show_alerts : Bool := true

/-! ## Alert evaluator (sync.py `AlertEvaluator`) -/

/-- CPU tier of `AlertEvaluator.evaluate_vm` (critical checked first,
`elif` for warning). -/
def cpuAlerts (cfg : AlertConfig) (cpu_usage : Option ℚ) : List ResourceAlert :=
  match cpu_usage with
  | none => []
  | some u =>
    let cpu_pct := u * 100
    if cpu_pct ≥ cfg.cpu_critical_threshold then
      [{ alert_type := .high_cpu, severity := .critical,
         message := "CPU usage critical: " ++ fmtQ1 cpu_pct ++ "%",
         value := some cpu_pct, threshold := some cfg.cpu_critical_threshold }]
    else if cpu_pct ≥ cfg.cpu_warning_threshold then
      [{ alert_type := .high_cpu, severity := .warning,
         message := "CPU usage high: " ++ fmtQ1 cpu_pct ++ "%",
         value := some cpu_pct, threshold := some cfg.cpu_warning_threshold }]
    else []

/-- Memory tier of `AlertEvaluator.evaluate_vm`. -/
def memAlerts (cfg : AlertConfig) (memory_usage : Option ℚ) : List ResourceAlert :=
  match memory_usage with
  | none => []
  | some u =>
    let mem_pct := u * 100
    if mem_pct ≥ cfg.memory_critical_threshold then
      [{ alert_type := .high_memory, severity := .critical,
         message := "Memory usage critical: " ++ fmtQ1 mem_pct ++ "%",
         value := some mem_pct, threshold := some cfg.memory_critical_threshold }]
    else if mem_pct ≥ cfg.memory_warning_threshold then
      [{ alert_type := .high_memory, severity := .warning,
         message := "Memory usage high: " ++ fmtQ1 mem_pct ++ "%",
         value := some mem_pct, threshold := some cfg.memory_warning_threshold }]
    else []

/-- Backup tier of `AlertEvaluator.evaluate_vm`: only entered when the
resource carries a backup summary (`if vm.backup_info:`); reads the
clock through the age computation. -/
def backupAlerts (cfg : AlertConfig) (now : ℤ) (backup_info : Option BackupInfo) :
    List ResourceAlert :=
  match backup_info with
  | none => []
  | some bi =>
    match bi.last_backup_age_days now with
    | none =>
      [{ alert_type := .no_backup, severity := .critical, message := "No backups found" }]
    | some age =>
      if age ≥ cfg.backup_critical_days then
        [{ alert_type := .old_backup, severity := .critical,
           message := "Last backup " ++ toString age ++ " days ago",
           value := some (age : ℚ), threshold := some (cfg.backup_critical_days : ℚ) }]
      else if age ≥ cfg.backup_warning_days then
        [{ alert_type := .old_backup, severity := .warning,
           message := "Last backup " ++ toString age ++ " days ago",
           value := some (age : ℚ), threshold := some (cfg.backup_warning_days : ℚ) }]
      else []

/-- Stopped-resource tier of `AlertEvaluator.evaluate_vm`. -/
def stoppedAlerts (cfg : AlertConfig) (status : ResourceStatus) : List ResourceAlert :=
  if cfg.alert_on_stopped ∧ status = .stopped then
    [{ alert_type := .stopped, severity := .info, message := "Resource is stopped" }]
  else []

/-- `AlertEvaluator.evaluate_vm`: list-append composition mirrors the
sequential `alerts.append` calls of the source. -/
def evaluate_vm (cfg : AlertConfig) (now : ℤ) (vm : ProxmoxVM) : List ResourceAlert :=
  cpuAlerts cfg vm.cpu_usage ++ memAlerts cfg vm.memory_usage
    ++ backupAlerts cfg now vm.backup_info ++ stoppedAlerts cfg vm.status

/-- `AlertEvaluator.evaluate_container` (same rule text as the VM
variant in the source). -/
def evaluate_container (cfg : AlertConfig) (now : ℤ) (ct : ProxmoxContainer) :
    List ResourceAlert :=
  cpuAlerts cfg ct.cpu_usage ++ memAlerts cfg ct.memory_usage
    ++ backupAlerts cfg now ct.backup_info ++ stoppedAlerts cfg ct.status

/-- `AlertEvaluator.evaluate_storage`. -/
def evaluate_storage (cfg : AlertConfig) (pool : StoragePool) : List ResourceAlert :=
  match pool.free_percent with
  | none => []
  | some fp =>
    if fp ≤ cfg.storage_critical_threshold then
      [{ alert_type := .low_storage, severity := .critical,
         message := "Storage nearly full: " ++ fmtQ1 fp ++ "% free",
         value := some fp, threshold := some cfg.storage_critical_threshold }]
    else if fp ≤ cfg.storage_warning_threshold then
      [{ alert_type := .low_storage, severity := .warning,
         message := "Storage low: " ++ fmtQ1 fp ++ "% free",
         value := some fp, threshold := some cfg.storage_warning_threshold }]
    else []

/-! ## Markdown building blocks (craft_client.py `MarkdownBuilder`) -/

/-- `MarkdownBuilder.heading`. -/
def mdHeading (text : String) (level : ℕ) : String :=
  ⟨List.replicate (min (max level 1) 6) '#'⟩ ++ " " ++ text

/-- `MarkdownBuilder.bullet_list`. -/
def mdBulletList (items : List String) : String :=
  joinWith "\n" (items.map (fun i => "- " ++ i))

/-- `MarkdownBuilder.horizontal_rule`. -/
def mdHorizontalRule : String := "---"

/-- Icon table of `MarkdownBuilder.status_badge`. -/
def statusIcon (status : String) : String :=
  if status == "running" then "🟢"
  else if status == "stopped" then "🔴"
  else if status == "paused" then "🟡"
  else if status == "suspended" then "🟠"
  else if status == "unknown" then "⚪"
  else "⚪"

/-- `MarkdownBuilder.status_badge`. -/
def mdStatusBadge (status : String) : String :=
  statusIcon (pyLower status) ++ " " ++ pyCapitalize status

/-! ## Rendering helpers (sync.py module-level formatters) -/

/-- `format_uptime`. -/
def format_uptime (seconds : Option ℤ) : String :=
  match seconds with
  | none => "Unknown"
  | some s =>
    let days := s.fdiv 86400
    let hours := (s.fmod 86400).fdiv 3600
    let minutes := (s.fmod 3600).fdiv 60
    let parts : List String :=
      (if days > 0 then [toString days ++ "d"] else [])
        ++ (if hours > 0 then [toString hours ++ "h"] else [])
    let parts := parts ++ (if minutes > 0 ∨ parts.isEmpty then [toString minutes ++ "m"] else [])
    joinWith " " parts

/-- `format_memory`. -/
def format_memory (mb : Option ℤ) : String :=
  match mb with
  | none => "Unknown"
  | some m => if m ≥ 1024 then fmtQ1 ((m : ℚ) / 1024) ++ " GB" else toString m ++ " MB"

/-- `format_disk`. -/
def format_disk (gb : Option ℚ) : String :=
  match gb with
  | none => "Unknown"
  | some g => if g ≥ 1024 then fmtQ1 (g / 1024) ++ " TB" else fmtQ1 g ++ " GB"

/-- `format_snapshot_time`, with the calendar renderer passed in. -/
def format_snapshot_time (fmt_time : ℤ → String) (timestamp : Option ℤ) : String :=
  match timestamp with
  | none => "Unknown"
  | some t => fmt_time t

/-- `format_bytes`. -/
def format_bytes (bytes_val : Option ℤ) : String :=
  match bytes_val with
  | none => "Unknown"
  | some b =>
    if b ≥ 1024 ^ 4 then fmtQ1 ((b : ℚ) / 1024 ^ 4) ++ " TB"
    else if b ≥ 1024 ^ 3 then fmtQ1 ((b : ℚ) / 1024 ^ 3) ++ " GB"
    else if b ≥ 1024 ^ 2 then fmtQ1 ((b : ℚ) / 1024 ^ 2) ++ " MB"
    else toString b ++ " B"

/-- Inputs of the rendering methods of `SyncEngine` that come from the
application config and from the clock: Proxmox host and port (for web
UI links), alert thresholds, the evaluation time, and the calendar
renderer for timestamps. -/
structure RenderCtx where
  host : String
  port : ℤ
  alerts : AlertConfig
  now : ℤ
  fmt_time : ℤ → String

/-- `SyncEngine._get_proxmox_url`. -/
def proxmoxUrl (ctx : RenderCtx) (resource_type : String) (vmid : ℤ) : String :=
  "https://" ++ ctx.host ++ ":" ++ toString ctx.port ++ "/#v1:0:=" ++ resource_type
    ++ "/" ++ toString vmid ++ ":4"

/-- `SyncEngine._format_network_interfaces`. -/
def formatNetworkInterfaces (interfaces : List NetworkInterface) : String :=
  if interfaces.isEmpty then ""
  else
    let line := fun (iface : NetworkInterface) =>
      let parts := ["**" ++ iface.name ++ "**"]
      let parts := parts ++ (match iface.bridge with
        | some b => if b ≠ "" then ["Bridge: " ++ b] else [] | none => [])
      let parts := parts ++ (match iface.ip_address with
        | some i => if i ≠ "" then ["IP: " ++ i] else [] | none => [])
      let parts := parts ++ (match iface.gateway with
        | some g => if g ≠ "" then ["GW: " ++ g] else [] | none => [])
      let parts := parts ++ (match iface.vlan_tag with
        | some v => if v ≠ 0 then ["VLAN: " ++ toString v] else [] | none => [])
      let parts := parts ++ (match iface.mac_address with
        | some m => if m ≠ "" then ["MAC: " ++ m] else [] | none => [])
      let parts := parts ++ (match iface.model with
        | some m => if m ≠ "" then ["Model: " ++ m] else [] | none => [])
      "- " ++ joinWith " | " parts
    joinWith "\n" (["", "**Network Interfaces:**"] ++ interfaces.map line)

/-- `SyncEngine._format_snapshots`. -/
def formatSnapshots (ctx : RenderCtx) (snapshots : List Snapshot) : String :=
  if snapshots.isEmpty then ""
  else
    let line := fun (snap : Snapshot) =>
      let time_str := format_snapshot_time ctx.fmt_time snap.snaptime
      let desc := match snap.description with
        | some d => if d ≠ "" then " - " ++ d else "" | none => ""
      "- **" ++ snap.name ++ "** (" ++ time_str ++ ")" ++ desc
    joinWith "\n" (["", "**Snapshots:**"] ++ snapshots.map line)

/-- `SyncEngine._format_backup_info`. -/
def formatBackupInfo (ctx : RenderCtx) (backup_info : Option BackupInfo) : String :=
  match backup_info with
  | none => ""
  | some bi =>
    let lines := ["", mdHeading "Backups" 2]
    let lines := lines ++
      (match bi.last_backup with
       | some last =>
         let age := bi.last_backup_age_days ctx.now
         let time_str := format_snapshot_time ctx.fmt_time last.backup_time
         let age_indicator := match age with
           | some a =>
             if a ≥ ctx.alerts.backup_critical_days then " 🚨"
             else if a ≥ ctx.alerts.backup_warning_days then " ⚠️"
             else ""
           | none => ""
         let age_str := match age with
           | some a => " (" ++ toString a ++ " days ago)"
           | none => ""
         ["- **Last backup:** " ++ time_str ++ age_str ++ age_indicator]
           ++ (if optIntTruthy last.size_bytes then
                 ["- **Size:** " ++ format_bytes last.size_bytes] else [])
           ++ (if last.storage ≠ "" then ["- **Storage:** " ++ last.storage] else [])
       | none => ["- 🚨 **No backups found**"])
    let lines := lines ++
      (match bi.scheduled_job with
       | some j => if j ≠ "" then ["- **Scheduled:** Yes (Job: " ++ j ++ ")"]
                   else ["- **Scheduled:** No"]
       | none => ["- **Scheduled:** No"])
    let lines := lines ++ ["- **Total backups:** " ++ toString bi.backups.length]
    joinWith "\n" lines

/-- `SyncEngine._format_alerts_section`. -/
def formatAlertsSection (alerts : List ResourceAlert) : String :=
  if alerts.isEmpty then ""
  else
    let significant := alerts.filter
      (fun a => a.severity == .warning || a.severity == .critical)
    if significant.isEmpty then ""
    else
      let line := fun (a : ResourceAlert) =>
        let icon := if a.severity == .critical then "🚨" else "⚠️"
        "- " ++ icon ++ " " ++ a.message
      joinWith "\n" (["", "**Alerts:**"] ++ significant.map line)

/-- The default placeholder text of the Notes section. -/
def notesPlaceholder : String := "*Add your notes, runbooks, and documentation here...*"

/-- `SyncEngine._get_alert_indicator` (VM overload). -/
def alertIndicatorVm (vm : ProxmoxVM) : String :=
  if vm.has_critical then "🚨 " else if vm.has_warnings then "⚠️ " else ""

/-- `SyncEngine._get_alert_indicator` (container overload). -/
def alertIndicatorCt (ct : ProxmoxContainer) : String :=
  if ct.has_critical then "🚨 " else if ct.has_warnings then "⚠️ " else ""

/-- The `lines` list built by `SyncEngine._format_vm_detail`, ending
with the Notes heading and the default placeholder. -/
def vmDetailLines (ctx : RenderCtx) (vm : ProxmoxVM) : List String :=
  let status_badge := mdStatusBadge vm.status.value
  let url := proxmoxUrl ctx "qemu" vm.vmid
  let lines : List String :=
    [mdHeading (alertIndicatorVm vm ++ vm.display_name) 1,
     "",
     status_badge ++ " | VMID: " ++ toString vm.vmid ++ " | Node: " ++ vm.node,
     "",
     "[Open in Proxmox](" ++ url ++ ")",
     ""]
  let lines := lines ++
    (if vm.alerts.isEmpty then [] else [formatAlertsSection vm.alerts, ""])
  let specs : List String :=
    (if optIntTruthy vm.cpu_cores then
       ["**CPU:** " ++ toString (vm.cpu_cores.getD 0) ++ " cores"] else [])
      ++ (if optIntTruthy vm.memory_mb then
            ["**Memory:** " ++ format_memory vm.memory_mb] else [])
      ++ (if optRatTruthy vm.disk_gb then
            ["**Disk:** " ++ format_disk vm.disk_gb] else [])
      ++ (if optStrTruthy vm.disk_info then
            ["**Storage:** " ++ (vm.disk_info.getD "")] else [])
      ++ (if optStrTruthy vm.os_type then
            ["**OS Type:** " ++ (vm.os_type.getD "")] else [])
      ++ (if optIntTruthy vm.uptime then
            ["**Uptime:** " ++ format_uptime vm.uptime] else [])
  let lines := lines ++ [mdHeading "Specifications" 2]
  let lines := lines ++ (if specs.isEmpty then [] else [mdBulletList specs])
  let lines := lines ++ [""]
  let lines := lines ++
    (if vm.ip_addresses.isEmpty ∧ vm.network_interfaces.isEmpty then []
     else
       [mdHeading "Network" 2]
         ++ (if vm.ip_addresses.isEmpty then []
             else ["**IP Addresses:** " ++ joinWith ", " vm.ip_addresses])
         ++ [formatNetworkInterfaces vm.network_interfaces, ""])
  let lines := lines ++
    (match vm.backup_info with
     | some _ => [formatBackupInfo ctx vm.backup_info, ""]
     | none => [])
  let lines := lines ++
    (if vm.snapshots.isEmpty then []
     else [mdHeading "Snapshots" 2, "Total: " ++ toString vm.snapshot_count,
           formatSnapshots ctx vm.snapshots, ""])
  let lines := lines ++
    (if vm.tags.isEmpty then [] else [mdHeading "Tags" 2, joinWith ", " vm.tags, ""])
  let lines := lines ++
    (match vm.description with
     | some d =>
       let clean := strip_html d
       if clean ≠ "" then [mdHeading "Description" 2, clean, ""] else []
     | none => [])
  lines ++ [mdHeading "Notes" 2, notesPlaceholder, ""]

/-- `SyncEngine._format_vm_detail`: the full subpage markdown of a VM
(`"\n".join(lines)`). -/
def formatVmDetail (ctx : RenderCtx) (vm : ProxmoxVM) : String :=
  joinWith "\n" (vmDetailLines ctx vm)

/-- The `lines` list built by `SyncEngine._format_container_detail`. -/
def ctDetailLines (ctx : RenderCtx) (ct : ProxmoxContainer) : List String :=
  let status_badge := mdStatusBadge ct.status.value
  let url := proxmoxUrl ctx "lxc" ct.vmid
  let lines : List String :=
    [mdHeading (alertIndicatorCt ct ++ ct.display_name) 1,
     "",
     status_badge ++ " | CTID: " ++ toString ct.vmid ++ " | Node: " ++ ct.node,
     "",
     "[Open in Proxmox](" ++ url ++ ")",
     ""]
  let lines := lines ++
    (if ct.alerts.isEmpty then [] else [formatAlertsSection ct.alerts, ""])
  let specs : List String :=
    (if optIntTruthy ct.cpu_cores then
       ["**CPU:** " ++ toString (ct.cpu_cores.getD 0) ++ " cores"] else [])
      ++ (if optIntTruthy ct.memory_mb then
            ["**Memory:** " ++ format_memory ct.memory_mb] else [])
      ++ (if optRatTruthy ct.disk_gb then
            ["**Disk:** " ++ format_disk ct.disk_gb] else [])
      ++ (if optStrTruthy ct.rootfs_size then
            ["**Root FS:** " ++ (ct.rootfs_size.getD "")] else [])
      ++ (if optStrTruthy ct.hostname then
            ["**Hostname:** " ++ (ct.hostname.getD "")] else [])
      ++ (if optStrTruthy ct.os_template then
            ["**Template:** " ++ (ct.os_template.getD "")] else [])
      ++ (if optIntTruthy ct.uptime then
            ["**Uptime:** " ++ format_uptime ct.uptime] else [])
  let lines := lines ++ [mdHeading "Specifications" 2]
  let lines := lines ++ (if specs.isEmpty then [] else [mdBulletList specs])
  let lines := lines ++ [""]
  let lines := lines ++
    (if ct.ip_addresses.isEmpty ∧ ct.network_interfaces.isEmpty then []
     else
       [mdHeading "Network" 2]
         ++ (if ct.ip_addresses.isEmpty then []
             else ["**IP Addresses:** " ++ joinWith ", " ct.ip_addresses])
         ++ [formatNetworkInterfaces ct.network_interfaces, ""])
  let lines := lines ++
    (match ct.backup_info with
     | some _ => [formatBackupInfo ctx ct.backup_info, ""]
     | none => [])
  let lines := lines ++
    (if ct.snapshots.isEmpty then []
     else [mdHeading "Snapshots" 2, "Total: " ++ toString ct.snapshot_count,
           formatSnapshots ctx ct.snapshots, ""])
  let lines := lines ++
    (if ct.tags.isEmpty then [] else [mdHeading "Tags" 2, joinWith ", " ct.tags, ""])
  let lines := lines ++
    (match ct.description with
     | some d =>
       let clean := strip_html d
       if clean ≠ "" then [mdHeading "Description" 2, clean, ""] else []
     | none => [])
  lines ++ [mdHeading "Notes" 2, notesPlaceholder, ""]

/-- `SyncEngine._format_container_detail` (`"\n".join(lines)`). -/
def formatContainerDetail (ctx : RenderCtx) (ct : ProxmoxContainer) : String :=
  joinWith "\n" (ctDetailLines ctx ct)

/-! ## Grouping strategies (sync.py `_group_resources_by_tag`,
`_group_resources_by_status` and their iteration orders) -/

/-- The ordered-dict state of the grouping methods: insertion-ordered
association list from group label to the pair of VM and container
bucket lists. -/
abbrev ResourceGroups := List (String × (List ProxmoxVM × List ProxmoxContainer))

/-- `groups[tag][0].append(vm)` with `groups.setdefault`-style creation
at the end of the dict, as the source's `if tag not in groups` does. -/
def addGroupVm (groups : ResourceGroups) (tag : String) (vm : ProxmoxVM) : ResourceGroups :=
  if groups.any (fun g => g.1 == tag) then
    groups.map (fun g => if g.1 == tag then (g.1, (g.2.1 ++ [vm], g.2.2)) else g)
  else groups ++ [(tag, ([vm], []))]

/-- `groups[tag][1].append(ct)` with creation at the end of the dict. -/
def addGroupCt (groups : ResourceGroups) (tag : String) (ct : ProxmoxContainer) : ResourceGroups :=
  if groups.any (fun g => g.1 == tag) then
    groups.map (fun g => if g.1 == tag then (g.1, (g.2.1, g.2.2 ++ [ct])) else g)
  else groups ++ [(tag, ([], [ct]))]

/-- `vm.tags if vm.tags else ["Untagged"]`. -/
def effTags (tags : List String) : List String :=
  if tags.isEmpty then ["Untagged"] else tags

/-- `SyncEngine._group_resources_by_tag`. -/
def group_resources_by_tag (vms : List ProxmoxVM) (cts : List ProxmoxContainer) :
    ResourceGroups :=
  let g := vms.foldl (fun gs vm => (effTags vm.tags).foldl (fun gs t => addGroupVm gs t vm) gs) []
  cts.foldl (fun gs ct => (effTags ct.tags).foldl (fun gs t => addGroupCt gs t ct) gs) g

/-- Group key of `_group_resources_by_status`
(`vm.status.value.capitalize()`). -/
def statusKey (status : ResourceStatus) : String :=
  pyCapitalize status.value

/-- `SyncEngine._group_resources_by_status`. -/
def group_resources_by_status (vms : List ProxmoxVM) (cts : List ProxmoxContainer) :
    ResourceGroups :=
  let g := vms.foldl (fun gs vm => addGroupVm gs (statusKey vm.status) vm) []
  cts.foldl (fun gs ct => addGroupCt gs (statusKey ct.status) ct) g

/-- VM bucket of a label (empty when the label has no entry). -/
def bucketVms (groups : ResourceGroups) (tag : String) : List ProxmoxVM :=
  match groups.find? (fun g => g.1 == tag) with
  | some g => g.2.1
  | none => []

/-- Container bucket of a label. -/
def bucketCts (groups : ResourceGroups) (tag : String) : List ProxmoxContainer :=
  match groups.find? (fun g => g.1 == tag) with
  | some g => g.2.2
  | none => []

/-- Sort key component: `Untagged` ranks after every other label
(the boolean `t == "Untagged"` of the Python sort key). -/
def tagRank (t : String) : ℕ :=
  if t == "Untagged" then 1 else 0

/-- The tag iteration order of `_sync_grouped_by_tag`: Python
`sorted(keys, key=lambda t: (t == "Untagged", t.lower()))`, i.e.
lexicographic on the pair of the Untagged flag and the lowered label. -/
def tagLeB (a b : String) : Bool :=
  decide (tagRank a < tagRank b)
    || (decide (tagRank a = tagRank b) && lexLe (pyLower a).data (pyLower b).data)

/-- Propositional form of `tagLeB`. -/
def tagLe (a b : String) : Prop := tagLeB a b = true

instance : DecidableRel tagLe := fun a b => instDecidableEqBool _ _

/-- The sorted tag label list: Python `sorted` is stable, which a
`≤`-based insertion sort reproduces exactly. -/
def sortedTagLabels (groups : ResourceGroups) : List String :=
  List.insertionSort tagLe (groups.map Prod.fst)

/-- `status_order` of `_sync_grouped_by_status`. -/
def statusOrderList : List String :=
  ["Running", "Stopped", "Paused", "Suspended", "Unknown"]

/-- Python `status_order.index(s) if s in status_order else
len(status_order)`. -/
def statusSortKey (s : String) : ℕ :=
  (statusOrderList.findIdx? (fun x => x == s)).getD statusOrderList.length

/-- The status iteration order. -/
def statusLe (a b : String) : Prop := statusSortKey a ≤ statusSortKey b

instance : DecidableRel statusLe := fun _ _ => Nat.decLe _ _

/-- The sorted status label list. -/
def sortedStatusLabels (groups : ResourceGroups) : List String :=
  List.insertionSort statusLe (groups.map Prod.fst)

/-! ## Prior-entry map and user-note extraction (sync.py
`_find_existing_resource_blocks`, `_extract_user_notes`)

A resource key `f"vm-{vmid}"` / `f"ct-{ctid}"` is modelled by the
injective `RId`; the recovered ordered dict is an insertion-ordered
association list from `RId` to the per-entry block data. The marker
scan that produces the map is part of the Inventory Snapshot Reader
collaborator (spec section 4.2); the reconciler consumes its output
contract, so the map is taken as input here. -/

/-- A resource key: `vm-<id>` or `ct-<id>`. -/
inductive RId
  | vm (n : ℤ)
  | ct (n : ℤ)
deriving DecidableEq

/-- One child item of a resource block's subpage, as returned by the
document store: `item.get("markdown", "")` and `item.get("content", "")`. -/
structure ChildItem where
  markdown : String := ""
  content : String := ""
deriving DecidableEq

/-- `item.get("markdown", "") or item.get("content", "")`. -/
def itemText (it : ChildItem) : String :=
  if it.markdown ≠ "" then it.markdown else it.content

/-- Data the engine keeps per recovered prior entry: the block's own
id (`block.get("id")`, possibly absent) and the child content that
`get_block(block_id)` returns for the notes scan. The enclosing
block's raw text is consulted only for the deleted-page display name,
which is presentation and out of the verified claims' scope. -/
structure BlockData where
  blockId : Option String := none
  children : List ChildItem := []
deriving DecidableEq

/-- The recovered prior map (`_find_existing_resource_blocks` result):
insertion-ordered, distinct keys (a Python dict). -/
abbrev ExistingBlocks := List (RId × BlockData)

/-- The collection loop of `_extract_user_notes`: once a Notes heading
is seen, collect non-placeholder, non-blank lines and stop at the next
heading. -/
def collectNotes : Bool → List ChildItem → List String
  | _, [] => []
  | in_notes, item :: rest =>
    let text := itemText item
    if containsStr text "## Notes" || containsStr text "# Notes" then
      collectNotes true rest
    else if in_notes && startsWithStr text "#" then
      []
    else if in_notes && !(containsStr text "*Add your notes") && pyStrip text ≠ "" then
      text :: collectNotes in_notes rest
    else
      collectNotes in_notes rest

/-- `SyncEngine._extract_user_notes`. -/
def extract_user_notes (children : List ChildItem) : Option String :=
  let notes_content := collectNotes false children
  if notes_content.isEmpty then none else some (joinWith "\n" notes_content)

/-- The `preserved_notes` dict of `sync_incremental`: for each entry
with a truthy block id whose subpage yields truthy notes, store the
extracted text. -/
def preservedNotes (existing : ExistingBlocks) : List (RId × String) :=
  existing.foldl
    (fun acc e =>
      if optStrTruthy e.2.blockId then
        match extract_user_notes e.2.children with
        | some n => if n ≠ "" then acc ++ [(e.1, n)] else acc
        | none => acc
      else acc)
    []

/-- Dict lookup on an association list. -/
def alookup {α : Type} (l : List (RId × α)) (k : RId) : Option α :=
  (l.find? (fun p => p.1 == k)).map Prod.snd

/-! ## Incremental reconciliation (sync.py `sync_incremental`) -/

/-- One per-resource operation issued against the document store. -/
inductive Op
  /-- Re-render an existing resource's subpage under its block. -/
  | updateSub (rid : RId) (blockId : String) (content : String)
  /-- Insert a new heading block and create its subpage. -/
  | insertNew (rid : RId) (heading : String) (content : String)
  /-- Re-render an orphaned resource's subpage as a deleted-resource
  page carrying the preserved notes (banner rendering is presentation,
  out of the verified claims' scope). -/
  | flagDeleted (rid : RId) (blockId : String) (userNotes : Option String)
deriving DecidableEq

/-- The resource key an operation decides. -/
def Op.rid : Op → RId
  | .updateSub rid _ _ => rid
  | .insertNew rid _ _ => rid
  | .flagDeleted rid _ _ => rid

/-- The VM loop body of `sync_incremental`: update in place when the
key is recovered from the document (substituting preserved notes for
the placeholder), otherwise insert as new. -/
def vmOp (ctx : RenderCtx) (existing : ExistingBlocks) (pnotes : List (RId × String))
    (vm : ProxmoxVM) : List Op :=
  let rid := RId.vm vm.vmid
  let user_notes := alookup pnotes rid
  match alookup existing rid with
  | some bd =>
    match bd.blockId with
    | some bid =>
      if bid ≠ "" then
        let detail := formatVmDetail ctx vm
        let content := match user_notes with
          | some n => if n ≠ "" then pyReplace detail notesPlaceholder n else detail
          | none => detail
        [.updateSub rid bid content]
      else []
    | none => []
  | none => [.insertNew rid ("### " ++ vm.display_name) (formatVmDetail ctx vm)]

/-- The container loop body of `sync_incremental`. -/
def ctOp (ctx : RenderCtx) (existing : ExistingBlocks) (pnotes : List (RId × String))
    (ct : ProxmoxContainer) : List Op :=
  let rid := RId.ct ct.vmid
  let user_notes := alookup pnotes rid
  match alookup existing rid with
  | some bd =>
    match bd.blockId with
    | some bid =>
      if bid ≠ "" then
        let detail := formatContainerDetail ctx ct
        let content := match user_notes with
          | some n => if n ≠ "" then pyReplace detail notesPlaceholder n else detail
          | none => detail
        [.updateSub rid bid content]
      else []
    | none => []
  | none => [.insertNew rid ("### " ++ ct.display_name) (formatContainerDetail ctx ct)]

/-- `current_resource_ids` of `sync_incremental` (a set; only
membership is consulted). -/
def currentIds (vms : List ProxmoxVM) (cts : List ProxmoxContainer) : List RId :=
  vms.map (fun vm => RId.vm vm.vmid) ++ cts.map (fun ct => RId.ct ct.vmid)

/-- The deleted-resource pass of `sync_incremental`: every recovered
entry whose key is absent from the current inventory and that has a
truthy block id is re-rendered as a deleted-resource page. -/
def orphanOps (existing : ExistingBlocks) (pnotes : List (RId × String))
    (current : List RId) : List Op :=
  (existing.filter (fun e => decide (e.1 ∉ current))).flatMap
    (fun e =>
      match e.2.blockId with
      | some bid => if bid ≠ "" then [.flagDeleted e.1 bid (alookup pnotes e.1)] else []
      | none => [])

/-- The full per-resource operation sequence of `sync_incremental`:
current VMs in inventory order, then current containers in inventory
order, then orphaned prior entries in recovered-map order. (The
overview re-insertion that precedes it is not a per-resource
decision.) -/
def incrementalOps (ctx : RenderCtx) (vms : List ProxmoxVM) (cts : List ProxmoxContainer)
    (existing : ExistingBlocks) : List Op :=
  let pnotes := preservedNotes existing
  (vms.flatMap (vmOp ctx existing pnotes))
    ++ (cts.flatMap (ctOp ctx existing pnotes))
    ++ orphanOps existing pnotes (currentIds vms cts)

/-! ## Full sync (sync.py `sync`) -/

/-- One operation of the full (destructive) sync. The contents of the
overview, node sections, storage lists and quick-reference tables are
presentation (spec sections 1 and 2 scope them out); resource subpage
creation carries its key, heading and rendered detail. -/
inductive FOp
  /-- `clear_document` on the target. -/
  | clear
  /-- The cluster overview block. -/
  | insertOverview
  /-- A group section header (node / tag / status). -/
  | insertGroupHeader (label : String)
  /-- The "Virtual Machines" / "Containers" section heading. -/
  | insertSectionHeader (title : String)
  /-- Insert a resource heading block and create its detail subpage. -/
  | createResource (rid : RId) (heading : String) (detail : String)
  /-- A horizontal-rule separator. -/
  | insertSeparator
  /-- The quick-reference tables. -/
  | insertQuickRef

/-- Ascending-vmid order of `sorted(vms, key=lambda v: v.vmid)`
(stable, matching Python `sorted`). -/
def sortVmsByVmid (vms : List ProxmoxVM) : List ProxmoxVM :=
  List.insertionSort (fun a b => a.vmid ≤ b.vmid) vms

/-- Ascending-vmid order for containers. -/
def sortCtsByVmid (cts : List ProxmoxContainer) : List ProxmoxContainer :=
  List.insertionSort (fun a b => a.vmid ≤ b.vmid) cts

/-- `SyncEngine._sync_vm_section`. -/
def syncVmSectionOps (ctx : RenderCtx) (vms : List ProxmoxVM) : List FOp :=
  if vms.isEmpty then []
  else
    FOp.insertSectionHeader "Virtual Machines" ::
      (sortVmsByVmid vms).map (fun vm =>
        FOp.createResource (RId.vm vm.vmid)
          ("### " ++ alertIndicatorVm vm ++ vm.display_name)
          (formatVmDetail ctx vm))

/-- `SyncEngine._sync_container_section`. -/
def syncCtSectionOps (ctx : RenderCtx) (cts : List ProxmoxContainer) : List FOp :=
  if cts.isEmpty then []
  else
    FOp.insertSectionHeader "Containers" ::
      (sortCtsByVmid cts).map (fun ct =>
        FOp.createResource (RId.ct ct.vmid)
          ("### " ++ alertIndicatorCt ct ++ ct.display_name)
          (formatContainerDetail ctx ct))

/-- `SyncEngine._sync_grouped_by_node`: nodes in discovery order, each
with its resources filtered by hosting node. -/
def syncGroupedByNodeOps (ctx : RenderCtx) (cluster : ProxmoxCluster) : List FOp :=
  cluster.nodes.flatMap (fun node =>
    FOp.insertGroupHeader node.name ::
      (syncVmSectionOps ctx (cluster.vms.filter (fun vm => vm.node == node.name))
        ++ syncCtSectionOps ctx (cluster.containers.filter (fun ct => ct.node == node.name))
        ++ [FOp.insertSeparator]))

/-- `SyncEngine._sync_grouped_by_tag`. -/
def syncGroupedByTagOps (ctx : RenderCtx) (cluster : ProxmoxCluster) : List FOp :=
  let groups := group_resources_by_tag cluster.vms cluster.containers
  (sortedTagLabels groups).flatMap (fun tag =>
    FOp.insertGroupHeader tag ::
      (syncVmSectionOps ctx (bucketVms groups tag)
        ++ syncCtSectionOps ctx (bucketCts groups tag)
        ++ [FOp.insertSeparator]))

/-- `SyncEngine._sync_grouped_by_status`. -/
def syncGroupedByStatusOps (ctx : RenderCtx) (cluster : ProxmoxCluster) : List FOp :=
  let groups := group_resources_by_status cluster.vms cluster.containers
  (sortedStatusLabels groups).flatMap (fun status =>
    FOp.insertGroupHeader status ::
      (syncVmSectionOps ctx (bucketVms groups status)
        ++ syncCtSectionOps ctx (bucketCts groups status)
        ++ [FOp.insertSeparator]))

/-- `AlertEvaluator` application of `SyncEngine._evaluate_alerts`:
attach freshly computed alerts to every resource. -/
def evaluateAlertsCluster (cfg : AlertConfig) (now : ℤ) (cluster : ProxmoxCluster) :
    ProxmoxCluster :=
  { cluster with
    vms := cluster.vms.map (fun vm => { vm with alerts := evaluate_vm cfg now vm }),
    containers := cluster.containers.map
      (fun ct => { ct with alerts := evaluate_container cfg now ct }) }

/-- `SyncEngine.sync`: optional clear, overview, grouping by the
configured mode (node is the default branch), then the quick-reference
tables when the inventory is small enough. Document-store writes are
modelled as succeeding (spec section 6). -/
def fullSyncOps (cfg : SyncConfig) (acfg : AlertConfig) (ctx : RenderCtx)
    (cluster : ProxmoxCluster) (clear_first : Bool) : List FOp :=
  let cluster := if cfg.show_alerts then evaluateAlertsCluster acfg ctx.now cluster else cluster
  (if clear_first then [FOp.clear] else [])
    ++ [FOp.insertOverview]
    ++ (if cfg.group_by == "tag" then syncGroupedByTagOps ctx cluster
        else if cfg.group_by == "status" then syncGroupedByStatusOps ctx cluster
        else syncGroupedByNodeOps ctx cluster)
    ++ (if cluster.total_vms + cluster.total_containers ≤ 30 then [FOp.insertQuickRef] else [])

/-- Result mode of a `sync_incremental` run. -/
inductive SyncOutcome
  /-- The full-replace fallback: `self.sync(clear_first=True)`. -/
  | fullReplace (ops : List FOp)
  /-- Per-resource incremental decisions. -/
  | incremental (ops : List Op)

/-- `SyncEngine.sync_incremental` mode selection: with no recovered
prior entries the run degrades to the full destructive sync with
`clear_first=True`; otherwise it emits the per-resource operations. -/
def sync_incremental (cfg : SyncConfig) (acfg : AlertConfig) (ctx : RenderCtx)
    (cluster : ProxmoxCluster) (existing : ExistingBlocks) : SyncOutcome :=
  if existing.isEmpty then
    .fullReplace (fullSyncOps cfg acfg ctx cluster true)
  else
    .incremental (incrementalOps ctx cluster.vms cluster.containers existing)

/-! ## Concrete sample inputs (used to exercise the theorems) -/

/-- A fixed rendering context for concrete runs. -/
def sampleCtx : RenderCtx :=
  { host := "pve.example", port := 8006, alerts := {}, now := 0, fmt_time := fun _ => "ts" }

/-- A plain running VM with the given id. -/
def sampleVM (n : ℤ) : ProxmoxVM :=
  { vmid := n, name := "web", node := "pve1", status := .running }

/-- A plain stopped container with the given id. -/
def sampleCT (n : ℤ) : ProxmoxContainer :=
  { vmid := n, name := "db", node := "pve1", status := .stopped }

/-- A recovered block with a nonempty id and no subpage children. -/
def sampleBD : BlockData := { blockId := some "blk1", children := [] }

/-- A recovered block whose subpage carries the user annotation
`keep backups weekly` under the Notes heading. -/
def sampleBDNotes : BlockData :=
  { blockId := some "blk2",
    children := [{ markdown := "## Notes" }, { markdown := "keep backups weekly" }] }

/-- A VM at 96% CPU usage. -/
def vm96 : ProxmoxVM :=
  { vmid := 9, name := "busy", node := "pve1", status := .running,
    cpu_usage := some (96 / 100) }

/-- A VM whose only backup is timestamped at Unix second 1. -/
def vmClock : ProxmoxVM :=
  { vmid := 11, name := "clock", node := "pve1", status := .running,
    backup_info := some { vmid := 11, backups :=
      [{ vmid := 11, node := "pve1", storage := "local", filename := "f1",
         backup_time := some 1 }] } }

/-- A VM with a backup summary but no backups at all. -/
def vmEmptyBackups : ProxmoxVM :=
  { vmid := 12, name := "nb", node := "pve1", status := .running,
    backup_info := some { vmid := 12, backups := [] } }

/-- A VM whose only backup is timestamped exactly at the Unix epoch. -/
def vmEpochBackup : ProxmoxVM :=
  { vmid := 13, name := "eb", node := "pve1", status := .running,
    backup_info := some { vmid := 13, backups :=
      [{ vmid := 13, node := "pve1", storage := "local", filename := "f0",
         backup_time := some 0 }] } }

/-- A VM carrying the literal tag `Untagged`. -/
def vmUntagged : ProxmoxVM :=
  { vmid := 7, name := "u", node := "pve1", status := .running, tags := ["Untagged"] }

/-- A VM tagged `prod` and `web`. -/
def vmProdWeb : ProxmoxVM :=
  { vmid := 8, name := "pw", node := "pve1", status := .running, tags := ["prod", "web"] }

/-- A VM with no tags. -/
def vmNoTags : ProxmoxVM :=
  { vmid := 6, name := "nt", node := "pve1", status := .running }

/-- A storage pool with data but zero used bytes. -/
def poolEmptyUsed : StoragePool :=
  { name := "local", node := "pve1", storage_type := "dir",
    total_bytes := some 1000000, used_bytes := some 0 }

/-! ## Helper lemmas: joined lines and `replace` -/

theorem mem_joinWith_infix (sep : String) :
    ∀ (ls : List String) (a : String), a ∈ ls → a.data <:+: (joinWith sep ls).data := by
  intro ls
  induction ls with
  | nil => intro a ha; simp at ha
  | cons x rest ih =>
    intro a ha
    cases rest with
    | nil =>
      simp at ha
      subst ha
      simp [joinWith]
    | cons y rest₂ =>
      rcases List.mem_cons.mp ha with h | h
      · subst h
        show a.data <:+: (a ++ sep ++ joinWith sep (y :: rest₂)).data
        rw [String.data_append, String.data_append]
        exact ((List.prefix_append a.data _).trans (List.prefix_append _ _)).isInfix
      · have hrec := ih a h
        show a.data <:+: (x ++ sep ++ joinWith sep (y :: rest₂)).data
        rw [String.data_append, String.data_append, List.append_assoc,
          ← List.append_assoc x.data]
        exact hrec.trans (List.suffix_append _ _).isInfix

theorem pyReplaceL_infix_aux (pat rep : List Char) (hp : pat ≠ []) :
    ∀ (n : ℕ) (s : List Char), s.length ≤ n → pat <:+: s →
      rep <:+: pyReplaceL s pat rep := by
  intro n
  induction n with
  | zero =>
    intro s hs hinf
    have hs0 : s = [] := List.eq_nil_of_length_eq_zero (Nat.le_zero.mp hs)
    subst hs0
    exact absurd (List.eq_nil_of_infix_nil hinf) hp
  | succ n ih =>
    intro s hs hinf
    rw [pyReplaceL]
    split
    · exact ⟨[], pyReplaceL (s.drop pat.length) pat rep, by simp⟩
    · rename_i hneg
      have hnpre : ¬ pat.isPrefixOf s := by
        intro hc
        exact hneg ⟨hp, hc⟩
      cases s with
      | nil => exact absurd (List.eq_nil_of_infix_nil hinf) hp
      | cons c s₂ =>
        obtain ⟨pre, post, hsp⟩ := hinf
        cases pre with
        | nil =>
          exfalso
          apply hnpre
          rw [List.isPrefixOf_iff_prefix]
          simp at hsp
          rw [← hsp]
          exact List.prefix_append pat post
        | cons d pre₂ =>
          simp only [List.cons_append, List.cons.injEq] at hsp
          obtain ⟨-, hsp2⟩ := hsp
          have hinf₂ : pat <:+: s₂ := ⟨pre₂, post, hsp2⟩
          have hlen : s₂.length ≤ n := by
            simp only [List.length_cons] at hs
            omega
          exact List.infix_cons (ih s₂ hlen hinf₂)

theorem pyReplaceL_infix (pat rep s : List Char) (hp : pat ≠ []) (h : pat <:+: s) :
    rep <:+: pyReplaceL s pat rep :=
  pyReplaceL_infix_aux pat rep hp s.length s le_rfl h

theorem pyReplace_infix (s pat rep : String) (hp : pat.data ≠ [])
    (h : pat.data <:+: s.data) : rep.data <:+: (pyReplace s pat rep).data := by
  unfold pyReplace
  rw [if_neg hp]
  exact pyReplaceL_infix pat.data rep.data s.data hp h

theorem notesPlaceholder_mem_vmDetailLines (ctx : RenderCtx) (vm : ProxmoxVM) :
    notesPlaceholder ∈ vmDetailLines ctx vm := by
  unfold vmDetailLines
  simp

theorem notesPlaceholder_mem_ctDetailLines (ctx : RenderCtx) (ct : ProxmoxContainer) :
    notesPlaceholder ∈ ctDetailLines ctx ct := by
  unfold ctDetailLines
  simp

theorem notesPlaceholder_infix_vmDetail (ctx : RenderCtx) (vm : ProxmoxVM) :
    notesPlaceholder.data <:+: (formatVmDetail ctx vm).data :=
  mem_joinWith_infix "\n" _ _ (notesPlaceholder_mem_vmDetailLines ctx vm)

theorem notesPlaceholder_infix_ctDetail (ctx : RenderCtx) (ct : ProxmoxContainer) :
    notesPlaceholder.data <:+: (formatContainerDetail ctx ct).data :=
  mem_joinWith_infix "\n" _ _ (notesPlaceholder_mem_ctDetailLines ctx ct)

/-! ## Helper lemmas: grouping buckets -/

theorem find?_map_fstPreserving {α : Type} (f : (String × α) → (String × α))
    (hf : ∀ g, (f g).1 = g.1) (t : String) (gs : List (String × α)) :
    List.find? (fun g => g.1 == t) (gs.map f) =
      (List.find? (fun g => g.1 == t) gs).map f := by
  induction gs with
  | nil => simp
  | cons g gs ih =>
    by_cases h : g.1 == t
    · rw [List.map_cons, List.find?_cons_of_pos, List.find?_cons_of_pos]
      · simp
      · exact h
      · rw [hf g]; exact h
    · rw [List.map_cons, List.find?_cons_of_neg, List.find?_cons_of_neg]
      · exact ih
      · simpa using h
      · rw [hf g]; simpa using h

theorem bucketVms_addGroupVm (gs : ResourceGroups) (t t' : String) (v : ProxmoxVM) :
    bucketVms (addGroupVm gs t' v) t =
      if t' = t then bucketVms gs t ++ [v] else bucketVms gs t := by
  unfold addGroupVm bucketVms
  by_cases hany : gs.any (fun g => g.1 == t')
  · rw [if_pos hany,
      find?_map_fstPreserving _ (fun g => by split <;> rfl) t gs]
    cases hf : List.find? (fun g => g.1 == t) gs with
    | none =>
      have hne : t' ≠ t := by
        intro he
        subst he
        obtain ⟨g, hg, hgt⟩ := List.any_eq_true.mp hany
        exact (List.find?_eq_none.mp hf g hg) hgt
      simp [hne]
    | some g =>
      have hgt : g.1 = t := by simpa using List.find?_some hf
      by_cases he : t' = t
      · subst he
        simp [hgt]
      · have hne : (g.1 == t') = false := by
          rw [hgt]
          simp only [beq_eq_false_iff_ne, ne_eq]
          exact fun hc => he hc.symm
        simp [hne, he]
        rw [if_neg (by rw [hgt]; intro hc; exact he hc.symm)]
  · rw [if_neg hany, List.find?_append]
    have hnone : List.find? (fun g => g.1 == t') gs = none := by
      rw [List.find?_eq_none]
      intro g hg hc
      exact hany (List.any_eq_true.mpr ⟨g, hg, hc⟩)
    by_cases he : t' = t
    · subst he
      rw [hnone]
      have hsing : List.find? (fun g => g.1 == t')
          [(t', ([v], ([] : List ProxmoxContainer)))] = some (t', ([v], [])) := by
        rw [List.find?_cons_of_pos _ (by simp)]
      rw [hsing]
      simp
    · have hsing : List.find? (fun g => g.1 == t)
          [(t', ([v], ([] : List ProxmoxContainer)))] = none := by
        rw [List.find?_cons_of_neg _ (by
          simp only [beq_iff_eq]
          exact fun hc => he hc)]
        rfl
      rw [hsing, if_neg he]
      cases List.find? (fun g => g.1 == t) gs <;> simp

theorem bucketCts_addGroupVm (gs : ResourceGroups) (t t' : String) (v : ProxmoxVM) :
    bucketCts (addGroupVm gs t' v) t = bucketCts gs t := by
  unfold addGroupVm bucketCts
  by_cases hany : gs.any (fun g => g.1 == t')
  · rw [if_pos hany,
      find?_map_fstPreserving _ (fun g => by split <;> rfl) t gs]
    cases hf : List.find? (fun g => g.1 == t) gs with
    | none => simp
    | some g =>
      simp
      try split <;> rfl
  · rw [if_neg hany, List.find?_append]
    by_cases he : t' = t
    · subst he
      have hnone : List.find? (fun g => g.1 == t') gs = none := by
        rw [List.find?_eq_none]
        intro g hg hc
        exact hany (List.any_eq_true.mpr ⟨g, hg, hc⟩)
      rw [hnone]
      have hsing : List.find? (fun g => g.1 == t')
          [(t', ([v], ([] : List ProxmoxContainer)))] = some (t', ([v], [])) := by
        rw [List.find?_cons_of_pos _ (by simp)]
      rw [hsing]
      simp
    · have hsing : List.find? (fun g => g.1 == t)
          [(t', ([v], ([] : List ProxmoxContainer)))] = none := by
        rw [List.find?_cons_of_neg _ (by
          simp only [beq_iff_eq]
          exact fun hc => he hc)]
        rfl
      rw [hsing]
      cases List.find? (fun g => g.1 == t) gs <;> simp

theorem bucketCts_addGroupCt (gs : ResourceGroups) (t t' : String) (c : ProxmoxContainer) :
    bucketCts (addGroupCt gs t' c) t =
      if t' = t then bucketCts gs t ++ [c] else bucketCts gs t := by
  unfold addGroupCt bucketCts
  by_cases hany : gs.any (fun g => g.1 == t')
  · rw [if_pos hany,
      find?_map_fstPreserving _ (fun g => by split <;> rfl) t gs]
    cases hf : List.find? (fun g => g.1 == t) gs with
    | none =>
      have hne : t' ≠ t := by
        intro he
        subst he
        obtain ⟨g, hg, hgt⟩ := List.any_eq_true.mp hany
        exact (List.find?_eq_none.mp hf g hg) hgt
      simp [hne]
    | some g =>
      have hgt : g.1 = t := by simpa using List.find?_some hf
      by_cases he : t' = t
      · subst he
        simp [hgt]
      · have hne : (g.1 == t') = false := by
          rw [hgt]
          simp only [beq_eq_false_iff_ne, ne_eq]
          exact fun hc => he hc.symm
        simp [hne, he]
        rw [if_neg (by rw [hgt]; intro hc; exact he hc.symm)]
  · rw [if_neg hany, List.find?_append]
    have hnone : List.find? (fun g => g.1 == t') gs = none := by
      rw [List.find?_eq_none]
      intro g hg hc
      exact hany (List.any_eq_true.mpr ⟨g, hg, hc⟩)
    by_cases he : t' = t
    · subst he
      rw [hnone]
      have hsing : List.find? (fun g => g.1 == t')
          [(t', (([] : List ProxmoxVM), [c]))] = some (t', ([], [c])) := by
        rw [List.find?_cons_of_pos _ (by simp)]
      rw [hsing]
      simp
    · have hsing : List.find? (fun g => g.1 == t)
          [(t', (([] : List ProxmoxVM), [c]))] = none := by
        rw [List.find?_cons_of_neg _ (by
          simp only [beq_iff_eq]
          exact fun hc => he hc)]
        rfl
      rw [hsing, if_neg he]
      cases List.find? (fun g => g.1 == t) gs <;> simp

theorem bucketVms_addGroupCt (gs : ResourceGroups) (t t' : String) (c : ProxmoxContainer) :
    bucketVms (addGroupCt gs t' c) t = bucketVms gs t := by
  unfold addGroupCt bucketVms
  by_cases hany : gs.any (fun g => g.1 == t')
  · rw [if_pos hany,
      find?_map_fstPreserving _ (fun g => by split <;> rfl) t gs]
    cases hf : List.find? (fun g => g.1 == t) gs with
    | none => simp
    | some g =>
      simp
      try split <;> rfl
  · rw [if_neg hany, List.find?_append]
    by_cases he : t' = t
    · subst he
      have hnone : List.find? (fun g => g.1 == t') gs = none := by
        rw [List.find?_eq_none]
        intro g hg hc
        exact hany (List.any_eq_true.mpr ⟨g, hg, hc⟩)
      rw [hnone]
      have hsing : List.find? (fun g => g.1 == t')
          [(t', (([] : List ProxmoxVM), [c]))] = some (t', ([], [c])) := by
        rw [List.find?_cons_of_pos _ (by simp)]
      rw [hsing]
      simp
    · have hsing : List.find? (fun g => g.1 == t)
          [(t', (([] : List ProxmoxVM), [c]))] = none := by
        rw [List.find?_cons_of_neg _ (by
          simp only [beq_iff_eq]
          exact fun hc => he hc)]
        rfl
      rw [hsing]
      cases List.find? (fun g => g.1 == t) gs <;> simp

theorem bucketVms_foldTags (ts : List String) (v : ProxmoxVM) :
    ∀ (gs : ResourceGroups) (t : String),
      bucketVms (ts.foldl (fun gs t' => addGroupVm gs t' v) gs) t =
        bucketVms gs t ++ List.replicate (ts.count t) v := by
  induction ts with
  | nil => intro gs t; simp
  | cons t' ts ih =>
    intro gs t
    rw [List.foldl_cons, ih, bucketVms_addGroupVm]
    by_cases he : t' = t
    · subst he
      rw [if_pos rfl, List.append_assoc]
      congr 1
      have hc : (t' :: ts).count t' = ts.count t' + 1 := by simp [List.count_cons]
      rw [hc, List.replicate_succ]
      rfl
    · rw [if_neg he]
      congr 1
      have hc : (t' :: ts).count t = ts.count t := by
        rw [List.count_cons]
        simp
        exact fun hcc => he hcc
      rw [hc]

theorem bucketCts_foldTags (ts : List String) (v : ProxmoxVM) :
    ∀ (gs : ResourceGroups) (t : String),
      bucketCts (ts.foldl (fun gs t' => addGroupVm gs t' v) gs) t = bucketCts gs t := by
  induction ts with
  | nil => intro gs t; simp
  | cons t' ts ih =>
    intro gs t
    rw [List.foldl_cons, ih, bucketCts_addGroupVm]

theorem bucketCts_foldTagsCt (ts : List String) (c : ProxmoxContainer) :
    ∀ (gs : ResourceGroups) (t : String),
      bucketCts (ts.foldl (fun gs t' => addGroupCt gs t' c) gs) t =
        bucketCts gs t ++ List.replicate (ts.count t) c := by
  induction ts with
  | nil => intro gs t; simp
  | cons t' ts ih =>
    intro gs t
    rw [List.foldl_cons, ih, bucketCts_addGroupCt]
    by_cases he : t' = t
    · subst he
      rw [if_pos rfl, List.append_assoc]
      congr 1
      have hc : (t' :: ts).count t' = ts.count t' + 1 := by simp [List.count_cons]
      rw [hc, List.replicate_succ]
      rfl
    · rw [if_neg he]
      congr 1
      have hc : (t' :: ts).count t = ts.count t := by
        rw [List.count_cons]
        simp
        exact fun hcc => he hcc
      rw [hc]

theorem bucketVms_foldTagsCt (ts : List String) (c : ProxmoxContainer) :
    ∀ (gs : ResourceGroups) (t : String),
      bucketVms (ts.foldl (fun gs t' => addGroupCt gs t' c) gs) t = bucketVms gs t := by
  induction ts with
  | nil => intro gs t; simp
  | cons t' ts ih =>
    intro gs t
    rw [List.foldl_cons, ih, bucketVms_addGroupCt]

theorem bucketVms_vmsFold (keys : ProxmoxVM → List String) :
    ∀ (vms : List ProxmoxVM) (gs : ResourceGroups) (t : String),
      bucketVms
          (vms.foldl (fun gs vm => (keys vm).foldl (fun gs t' => addGroupVm gs t' vm) gs) gs) t =
        bucketVms gs t ++ vms.flatMap (fun v => List.replicate ((keys v).count t) v) := by
  intro vms
  induction vms with
  | nil => intro gs t; simp
  | cons v vms ih =>
    intro gs t
    rw [List.foldl_cons, ih, bucketVms_foldTags]
    rw [List.flatMap_cons, List.append_assoc]

theorem bucketCts_vmsFold (keys : ProxmoxVM → List String) :
    ∀ (vms : List ProxmoxVM) (gs : ResourceGroups) (t : String),
      bucketCts
          (vms.foldl (fun gs vm => (keys vm).foldl (fun gs t' => addGroupVm gs t' vm) gs) gs) t =
        bucketCts gs t := by
  intro vms
  induction vms with
  | nil => intro gs t; simp
  | cons v vms ih =>
    intro gs t
    rw [List.foldl_cons, ih, bucketCts_foldTags]

theorem bucketCts_ctsFold (keys : ProxmoxContainer → List String) :
    ∀ (cts : List ProxmoxContainer) (gs : ResourceGroups) (t : String),
      bucketCts
          (cts.foldl (fun gs ct => (keys ct).foldl (fun gs t' => addGroupCt gs t' ct) gs) gs) t =
        bucketCts gs t ++ cts.flatMap (fun c => List.replicate ((keys c).count t) c) := by
  intro cts
  induction cts with
  | nil => intro gs t; simp
  | cons c cts ih =>
    intro gs t
    rw [List.foldl_cons, ih, bucketCts_foldTagsCt]
    rw [List.flatMap_cons, List.append_assoc]

theorem bucketVms_ctsFold (keys : ProxmoxContainer → List String) :
    ∀ (cts : List ProxmoxContainer) (gs : ResourceGroups) (t : String),
      bucketVms
          (cts.foldl (fun gs ct => (keys ct).foldl (fun gs t' => addGroupCt gs t' ct) gs) gs) t =
        bucketVms gs t := by
  intro cts
  induction cts with
  | nil => intro gs t; simp
  | cons c cts ih =>
    intro gs t
    rw [List.foldl_cons, ih, bucketVms_foldTagsCt]

theorem bucketVms_group_by_tag (vms : List ProxmoxVM) (cts : List ProxmoxContainer)
    (t : String) :
    bucketVms (group_resources_by_tag vms cts) t =
      vms.flatMap (fun v => List.replicate ((effTags v.tags).count t) v) := by
  unfold group_resources_by_tag
  rw [bucketVms_ctsFold (fun ct => effTags ct.tags),
    bucketVms_vmsFold (fun vm => effTags vm.tags)]
  simp [bucketVms]

theorem bucketCts_group_by_tag (vms : List ProxmoxVM) (cts : List ProxmoxContainer)
    (t : String) :
    bucketCts (group_resources_by_tag vms cts) t =
      cts.flatMap (fun c => List.replicate ((effTags c.tags).count t) c) := by
  unfold group_resources_by_tag
  rw [bucketCts_ctsFold (fun ct => effTags ct.tags),
    bucketCts_vmsFold (fun vm => effTags vm.tags)]
  simp [bucketCts]

theorem mem_bucketVms_group_by_tag (vms : List ProxmoxVM) (cts : List ProxmoxContainer)
    (v : ProxmoxVM) (t : String) :
    v ∈ bucketVms (group_resources_by_tag vms cts) t ↔ v ∈ vms ∧ t ∈ effTags v.tags := by
  rw [bucketVms_group_by_tag]
  rw [List.mem_flatMap]
  constructor
  · rintro ⟨v', hv', hrep⟩
    have hv := List.eq_of_mem_replicate hrep
    subst hv
    refine ⟨hv', ?_⟩
    have : (effTags v.tags).count t ≠ 0 := by
      intro hz
      rw [hz] at hrep
      simp at hrep
    rw [← List.count_pos_iff]
    omega
  · rintro ⟨hv, ht⟩
    refine ⟨v, hv, ?_⟩
    have : 0 < (effTags v.tags).count t := List.count_pos_iff.mpr ht
    rw [List.mem_replicate]
    exact ⟨by omega, rfl⟩

theorem mem_bucketCts_group_by_tag (vms : List ProxmoxVM) (cts : List ProxmoxContainer)
    (c : ProxmoxContainer) (t : String) :
    c ∈ bucketCts (group_resources_by_tag vms cts) t ↔ c ∈ cts ∧ t ∈ effTags c.tags := by
  rw [bucketCts_group_by_tag]
  rw [List.mem_flatMap]
  constructor
  · rintro ⟨c', hc', hrep⟩
    have hc := List.eq_of_mem_replicate hrep
    subst hc
    refine ⟨hc', ?_⟩
    have : (effTags c.tags).count t ≠ 0 := by
      intro hz
      rw [hz] at hrep
      simp at hrep
    rw [← List.count_pos_iff]
    omega
  · rintro ⟨hc, ht⟩
    refine ⟨c, hc, ?_⟩
    have : 0 < (effTags c.tags).count t := List.count_pos_iff.mpr ht
    rw [List.mem_replicate]
    exact ⟨by omega, rfl⟩

theorem mem_keys_of_bucketVms_ne_nil (gs : ResourceGroups) (t : String)
    (h : bucketVms gs t ≠ []) : t ∈ gs.map Prod.fst := by
  unfold bucketVms at h
  cases hf : List.find? (fun g => g.1 == t) gs with
  | none => rw [hf] at h; simp at h
  | some g =>
    have hgt : g.1 = t := by simpa using List.find?_some hf
    have hmem := List.mem_of_find?_eq_some hf
    exact hgt ▸ List.mem_map_of_mem Prod.fst hmem

theorem mem_keys_of_bucketCts_ne_nil (gs : ResourceGroups) (t : String)
    (h : bucketCts gs t ≠ []) : t ∈ gs.map Prod.fst := by
  unfold bucketCts at h
  cases hf : List.find? (fun g => g.1 == t) gs with
  | none => rw [hf] at h; simp at h
  | some g =>
    have hgt : g.1 = t := by simpa using List.find?_some hf
    have hmem := List.mem_of_find?_eq_some hf
    exact hgt ▸ List.mem_map_of_mem Prod.fst hmem

theorem bucketVms_vmsFoldSingle (key : ProxmoxVM → String) :
    ∀ (vms : List ProxmoxVM) (gs : ResourceGroups) (t : String),
      bucketVms (vms.foldl (fun gs vm => addGroupVm gs (key vm) vm) gs) t =
        bucketVms gs t ++ vms.flatMap (fun v => if key v = t then [v] else []) := by
  intro vms
  induction vms with
  | nil => intro gs t; simp
  | cons v vms ih =>
    intro gs t
    rw [List.foldl_cons, ih, bucketVms_addGroupVm, List.flatMap_cons]
    by_cases he : key v = t
    · rw [if_pos he, if_pos he, List.append_assoc]
    · rw [if_neg he, if_neg he]
      simp

theorem bucketCts_vmsFoldSingle (key : ProxmoxVM → String) :
    ∀ (vms : List ProxmoxVM) (gs : ResourceGroups) (t : String),
      bucketCts (vms.foldl (fun gs vm => addGroupVm gs (key vm) vm) gs) t =
        bucketCts gs t := by
  intro vms
  induction vms with
  | nil => intro gs t; simp
  | cons v vms ih =>
    intro gs t
    rw [List.foldl_cons, ih, bucketCts_addGroupVm]

theorem bucketCts_ctsFoldSingle (key : ProxmoxContainer → String) :
    ∀ (cts : List ProxmoxContainer) (gs : ResourceGroups) (t : String),
      bucketCts (cts.foldl (fun gs ct => addGroupCt gs (key ct) ct) gs) t =
        bucketCts gs t ++ cts.flatMap (fun c => if key c = t then [c] else []) := by
  intro cts
  induction cts with
  | nil => intro gs t; simp
  | cons c cts ih =>
    intro gs t
    rw [List.foldl_cons, ih, bucketCts_addGroupCt, List.flatMap_cons]
    by_cases he : key c = t
    · rw [if_pos he, if_pos he, List.append_assoc]
    · rw [if_neg he, if_neg he]
      simp

theorem bucketVms_ctsFoldSingle (key : ProxmoxContainer → String) :
    ∀ (cts : List ProxmoxContainer) (gs : ResourceGroups) (t : String),
      bucketVms (cts.foldl (fun gs ct => addGroupCt gs (key ct) ct) gs) t =
        bucketVms gs t := by
  intro cts
  induction cts with
  | nil => intro gs t; simp
  | cons c cts ih =>
    intro gs t
    rw [List.foldl_cons, ih, bucketVms_addGroupCt]

theorem bucketVms_group_by_status (vms : List ProxmoxVM) (cts : List ProxmoxContainer)
    (t : String) :
    bucketVms (group_resources_by_status vms cts) t =
      vms.flatMap (fun v => if statusKey v.status = t then [v] else []) := by
  unfold group_resources_by_status
  rw [bucketVms_ctsFoldSingle (fun ct => statusKey ct.status),
    bucketVms_vmsFoldSingle (fun vm => statusKey vm.status)]
  simp [bucketVms]

theorem bucketCts_group_by_status (vms : List ProxmoxVM) (cts : List ProxmoxContainer)
    (t : String) :
    bucketCts (group_resources_by_status vms cts) t =
      cts.flatMap (fun c => if statusKey c.status = t then [c] else []) := by
  unfold group_resources_by_status
  rw [bucketCts_ctsFoldSingle (fun ct => statusKey ct.status),
    bucketCts_vmsFoldSingle (fun vm => statusKey vm.status)]
  simp [bucketCts]

/-! ## Helper lemmas: the tag and status iteration orders -/

theorem lexLe_total : ∀ as bs : List Char, lexLe as bs = true ∨ lexLe bs as = true := by
  intro as
  induction as with
  | nil => intro bs; left; simp [lexLe]
  | cons a as ih =>
    intro bs
    cases bs with
    | nil => right; simp [lexLe]
    | cons b bs =>
      simp only [lexLe]
      by_cases h1 : a.toNat < b.toNat
      · left; simp [h1]
      · by_cases h2 : b.toNat < a.toNat
        · right; simp [h2]
        · rcases ih bs with h | h
          · left
            rw [if_neg h1, if_neg h2]
            exact h
          · right
            rw [if_neg h2, if_neg h1]
            exact h

theorem lexLe_trans : ∀ as bs cs : List Char,
    lexLe as bs = true → lexLe bs cs = true → lexLe as cs = true := by
  intro as
  induction as with
  | nil => intro bs cs _ _; simp [lexLe]
  | cons a as ih =>
    intro bs cs h1 h2
    cases bs with
    | nil => simp [lexLe] at h1
    | cons b bs =>
      cases cs with
      | nil => simp [lexLe] at h2
      | cons c cs =>
        simp only [lexLe] at h1 h2 ⊢
        by_cases hab : a.toNat < b.toNat
        · by_cases hbc : b.toNat < c.toNat
          · rw [if_pos (by omega)]
          · by_cases hcb : c.toNat < b.toNat
            · rw [if_neg hbc, if_pos hcb] at h2
              simp at h2
            · rw [if_pos (by omega)]
        · by_cases hba : b.toNat < a.toNat
          · rw [if_neg hab, if_pos hba] at h1
            simp at h1
          · by_cases hbc : b.toNat < c.toNat
            · rw [if_pos (by omega)]
            · by_cases hcb : c.toNat < b.toNat
              · rw [if_neg hbc, if_pos hcb] at h2
                simp at h2
              · rw [if_neg hab, if_neg hba] at h1
                rw [if_neg hbc, if_neg hcb] at h2
                rw [if_neg (by omega), if_neg (by omega)]
                exact ih bs cs h1 h2

instance : IsTotal String tagLe := by
  constructor
  intro a b
  unfold tagLe tagLeB
  rcases Nat.lt_trichotomy (tagRank a) (tagRank b) with h | h | h
  · left; simp [h]
  · rcases lexLe_total (pyLower a).data (pyLower b).data with hl | hl
    · left; simp [h, hl]
    · right; simp [h, hl]
  · right; simp [h]

instance : IsTrans String tagLe := by
  constructor
  intro a b c h1 h2
  unfold tagLe tagLeB at h1 h2 ⊢
  simp only [Bool.or_eq_true, Bool.and_eq_true, decide_eq_true_eq] at h1 h2 ⊢
  rcases h1 with h1 | ⟨h1e, h1l⟩
  · rcases h2 with h2 | ⟨h2e, h2l⟩
    · left; omega
    · left; omega
  · rcases h2 with h2 | ⟨h2e, h2l⟩
    · left; omega
    · right
      exact ⟨by omega, lexLe_trans _ _ _ h1l h2l⟩

instance : IsTotal String statusLe := by
  constructor
  intro a b
  unfold statusLe
  omega

instance : IsTrans String statusLe := by
  constructor
  intro a b c h1 h2
  unfold statusLe at h1 h2 ⊢
  omega

theorem tagLe_untagged_right (y : String) (h : tagLe "Untagged" y) : y = "Untagged" := by
  unfold tagLe tagLeB at h
  simp only [Bool.or_eq_true, Bool.and_eq_true, decide_eq_true_eq] at h
  have hu : tagRank "Untagged" = 1 := by simp [tagRank]
  by_cases hy : y = "Untagged"
  · exact hy
  · exfalso
    have hry : tagRank y = 0 := by
      unfold tagRank
      rw [if_neg (by simpa using hy)]
    rw [hu, hry] at h
    rcases h with h | ⟨h, -⟩
    · omega
    · omega

theorem sorted_tagLe_untagged_last :
    ∀ l : List String, List.Sorted tagLe l → "Untagged" ∈ l →
      l.getLast? = some "Untagged" := by
  intro l
  induction l with
  | nil => intro _ h; simp at h
  | cons x xs ih =>
    intro hs hm
    cases xs with
    | nil =>
      simp at hm
      subst hm
      rfl
    | cons y ys =>
      have hs₂ : List.Sorted tagLe (y :: ys) := (List.sorted_cons.mp hs).2
      have hrel : ∀ b ∈ y :: ys, tagLe x b := (List.sorted_cons.mp hs).1
      have hm₂ : "Untagged" ∈ y :: ys := by
        rcases List.mem_cons.mp hm with he | hm₂
        · have hx : tagLe x y := hrel y (by simp)
          rw [← he] at hx
          have hy := tagLe_untagged_right y hx
          subst hy
          simp
        · exact hm₂
      have := ih hs₂ hm₂
      rw [List.getLast?_cons_cons]
      exact this

/-! ## Helper lemmas: incremental operation keys -/

theorem alookup_some_mem {α : Type} (l : List (RId × α)) (k : RId) (x : α)
    (h : alookup l k = some x) : (k, x) ∈ l := by
  unfold alookup at h
  cases hf : List.find? (fun p => p.1 == k) l with
  | none => rw [hf] at h; simp at h
  | some p =>
    rw [hf] at h
    simp at h
    have hk : p.1 = k := by simpa using List.find?_some hf
    have hmem := List.mem_of_find?_eq_some hf
    have : p = (k, x) := by
      obtain ⟨p1, p2⟩ := p
      simp at hk h
      rw [hk, h]
    rw [← this]
    exact hmem

theorem vmOp_rids (ctx : RenderCtx) (existing : ExistingBlocks)
    (pnotes : List (RId × String)) (vm : ProxmoxVM)
    (hb : ∀ e ∈ existing, optStrTruthy e.2.blockId) :
    (vmOp ctx existing pnotes vm).map Op.rid = [RId.vm vm.vmid] := by
  unfold vmOp
  cases hf : alookup existing (RId.vm vm.vmid) with
  | none => simp [hf, Op.rid]
  | some bd =>
    have hmem : (RId.vm vm.vmid, bd) ∈ existing := alookup_some_mem _ _ _ hf
    have ht := hb _ hmem
    cases hbid : bd.blockId with
    | none => rw [hbid] at ht; simp [optStrTruthy] at ht
    | some bid =>
      rw [hbid] at ht
      simp only [optStrTruthy, ne_eq, decide_eq_true_eq] at ht
      simp [hf, hbid, ht, Op.rid]

theorem ctOp_rids (ctx : RenderCtx) (existing : ExistingBlocks)
    (pnotes : List (RId × String)) (ct : ProxmoxContainer)
    (hb : ∀ e ∈ existing, optStrTruthy e.2.blockId) :
    (ctOp ctx existing pnotes ct).map Op.rid = [RId.ct ct.vmid] := by
  unfold ctOp
  cases hf : alookup existing (RId.ct ct.vmid) with
  | none => simp [hf, Op.rid]
  | some bd =>
    have hmem : (RId.ct ct.vmid, bd) ∈ existing := alookup_some_mem _ _ _ hf
    have ht := hb _ hmem
    cases hbid : bd.blockId with
    | none => rw [hbid] at ht; simp [optStrTruthy] at ht
    | some bid =>
      rw [hbid] at ht
      simp only [optStrTruthy, ne_eq, decide_eq_true_eq] at ht
      simp [hf, hbid, ht, Op.rid]

theorem vmOps_rids (ctx : RenderCtx) (existing : ExistingBlocks)
    (pnotes : List (RId × String))
    (hb : ∀ e ∈ existing, optStrTruthy e.2.blockId) :
    ∀ vms : List ProxmoxVM,
      ((vms.flatMap (vmOp ctx existing pnotes)).map Op.rid) =
        vms.map (fun v => RId.vm v.vmid) := by
  intro vms
  induction vms with
  | nil => simp
  | cons v vms ih =>
    rw [List.flatMap_cons, List.map_append, ih, vmOp_rids ctx existing pnotes v hb]
    rfl

theorem ctOps_rids (ctx : RenderCtx) (existing : ExistingBlocks)
    (pnotes : List (RId × String))
    (hb : ∀ e ∈ existing, optStrTruthy e.2.blockId) :
    ∀ cts : List ProxmoxContainer,
      ((cts.flatMap (ctOp ctx existing pnotes)).map Op.rid) =
        cts.map (fun c => RId.ct c.vmid) := by
  intro cts
  induction cts with
  | nil => simp
  | cons c cts ih =>
    rw [List.flatMap_cons, List.map_append, ih, ctOp_rids ctx existing pnotes c hb]
    rfl

theorem orphanOps_rids (pnotes : List (RId × String)) (current : List RId) :
    ∀ existing : ExistingBlocks,
      (∀ e ∈ existing, optStrTruthy e.2.blockId) →
      (orphanOps existing pnotes current).map Op.rid =
        (existing.map Prod.fst).filter (fun k => decide (k ∉ current)) := by
  intro existing
  induction existing with
  | nil => intro _; rfl
  | cons e l ih =>
    intro hb
    have hbe := hb e (by simp)
    have hbl : ∀ x ∈ l, optStrTruthy x.2.blockId := fun x hx => hb x (by simp [hx])
    unfold orphanOps at ih ⊢
    by_cases hp : e.1 ∉ current
    · rw [List.filter_cons_of_pos (by simpa using hp), List.flatMap_cons, List.map_append,
        ih hbl, List.map_cons, List.filter_cons_of_pos (by simpa using hp)]
      cases hbid : e.2.blockId with
      | none => rw [hbid] at hbe; simp [optStrTruthy] at hbe
      | some bid =>
        rw [hbid] at hbe
        simp only [optStrTruthy, ne_eq, decide_eq_true_eq] at hbe
        simp [hbid, hbe, Op.rid]
    · rw [List.filter_cons_of_neg (by simpa using hp), ih hbl, List.map_cons,
        List.filter_cons_of_neg (by simpa using hp)]

theorem incrementalOps_rids (ctx : RenderCtx) (vms : List ProxmoxVM)
    (cts : List ProxmoxContainer) (existing : ExistingBlocks)
    (hb : ∀ e ∈ existing, optStrTruthy e.2.blockId) :
    (incrementalOps ctx vms cts existing).map Op.rid =
      currentIds vms cts
        ++ (existing.map Prod.fst).filter (fun k => decide (k ∉ currentIds vms cts)) := by
  unfold incrementalOps
  rw [List.map_append, List.map_append, vmOps_rids ctx existing _ hb,
    ctOps_rids ctx existing _ hb, orphanOps_rids _ _ existing hb]
  rfl

/-! ## Helper lemmas: alert evaluation -/

theorem cpuAlerts_types (cfg : AlertConfig) (u : Option ℚ) :
    ∀ a ∈ cpuAlerts cfg u, a.alert_type = .high_cpu := by
  intro a ha
  unfold cpuAlerts at ha
  cases u with
  | none => simp at ha
  | some q =>
    dsimp only at ha
    split_ifs at ha
    · rw [List.mem_singleton] at ha; subst ha; rfl
    · rw [List.mem_singleton] at ha; subst ha; rfl
    · simp at ha

theorem memAlerts_types (cfg : AlertConfig) (u : Option ℚ) :
    ∀ a ∈ memAlerts cfg u, a.alert_type = .high_memory := by
  intro a ha
  unfold memAlerts at ha
  cases u with
  | none => simp at ha
  | some q =>
    dsimp only at ha
    split_ifs at ha
    · rw [List.mem_singleton] at ha; subst ha; rfl
    · rw [List.mem_singleton] at ha; subst ha; rfl
    · simp at ha

theorem backupAlerts_types (cfg : AlertConfig) (now : ℤ) (bi : Option BackupInfo) :
    ∀ a ∈ backupAlerts cfg now bi,
      a.alert_type = .no_backup ∨ a.alert_type = .old_backup := by
  intro a ha
  unfold backupAlerts at ha
  cases bi with
  | none => simp at ha
  | some b =>
    dsimp only at ha
    cases hage : b.last_backup_age_days now with
    | none =>
      rw [hage] at ha
      dsimp only at ha
      rw [List.mem_singleton] at ha
      subst ha
      left; rfl
    | some age =>
      rw [hage] at ha
      dsimp only at ha
      split_ifs at ha
      · rw [List.mem_singleton] at ha; subst ha; right; rfl
      · rw [List.mem_singleton] at ha; subst ha; right; rfl
      · simp at ha

theorem stoppedAlerts_types (cfg : AlertConfig) (st : ResourceStatus) :
    ∀ a ∈ stoppedAlerts cfg st, a.alert_type = .stopped := by
  intro a ha
  unfold stoppedAlerts at ha
  split_ifs at ha
  · rw [List.mem_singleton] at ha; subst ha; rfl
  · simp at ha

theorem evaluate_vm_filter_highCpu (cfg : AlertConfig) (now : ℤ) (vm : ProxmoxVM) :
    (evaluate_vm cfg now vm).filter (fun a => a.alert_type == AlertType.high_cpu) =
      cpuAlerts cfg vm.cpu_usage := by
  unfold evaluate_vm
  rw [List.filter_append, List.filter_append, List.filter_append]
  have h1 : (cpuAlerts cfg vm.cpu_usage).filter
      (fun a => a.alert_type == AlertType.high_cpu) = cpuAlerts cfg vm.cpu_usage := by
    rw [List.filter_eq_self]
    intro a ha
    simp [cpuAlerts_types cfg vm.cpu_usage a ha]
  have h2 : (memAlerts cfg vm.memory_usage).filter
      (fun a => a.alert_type == AlertType.high_cpu) = [] := by
    rw [List.filter_eq_nil_iff]
    intro a ha
    simp [memAlerts_types cfg vm.memory_usage a ha]
  have h3 : (backupAlerts cfg now vm.backup_info).filter
      (fun a => a.alert_type == AlertType.high_cpu) = [] := by
    rw [List.filter_eq_nil_iff]
    intro a ha
    rcases backupAlerts_types cfg now vm.backup_info a ha with h | h <;> simp [h]
  have h4 : (stoppedAlerts cfg vm.status).filter
      (fun a => a.alert_type == AlertType.high_cpu) = [] := by
    rw [List.filter_eq_nil_iff]
    intro a ha
    simp [stoppedAlerts_types cfg vm.status a ha]
  rw [h1, h2, h3, h4]
  simp

theorem evaluate_vm_filter_backup (cfg : AlertConfig) (now : ℤ) (vm : ProxmoxVM)
    (ty : AlertType) (hty : ty = .no_backup ∨ ty = .old_backup) :
    (evaluate_vm cfg now vm).filter (fun a => a.alert_type == ty) =
      (backupAlerts cfg now vm.backup_info).filter (fun a => a.alert_type == ty) := by
  unfold evaluate_vm
  rw [List.filter_append, List.filter_append, List.filter_append]
  have h1 : (cpuAlerts cfg vm.cpu_usage).filter (fun a => a.alert_type == ty) = [] := by
    rw [List.filter_eq_nil_iff]
    intro a ha
    rcases hty with h | h <;> simp [h, cpuAlerts_types cfg vm.cpu_usage a ha]
  have h2 : (memAlerts cfg vm.memory_usage).filter (fun a => a.alert_type == ty) = [] := by
    rw [List.filter_eq_nil_iff]
    intro a ha
    rcases hty with h | h <;> simp [h, memAlerts_types cfg vm.memory_usage a ha]
  have h4 : (stoppedAlerts cfg vm.status).filter (fun a => a.alert_type == ty) = [] := by
    rw [List.filter_eq_nil_iff]
    intro a ha
    rcases hty with h | h <;> simp [h, stoppedAlerts_types cfg vm.status a ha]
  rw [h1, h2, h4]
  simp

theorem last_backup_age_of_time (bi : BackupInfo) (b : Backup) (now t : ℤ)
    (hlast : bi.last_backup = some b) (ht : b.backup_time = some t) (hnz : t ≠ 0) :
    bi.last_backup_age_days now = some ((now - t).fdiv 86400) := by
  unfold BackupInfo.last_backup_age_days
  rw [hlast]
  dsimp only
  unfold Backup.age_days
  rw [ht]
  dsimp only
  rw [if_pos hnz]

/-! ## Claim theorems -/

/-- C4: a resource at 96% CPU usage evaluated with the default
thresholds (warning 80, critical 95) yields exactly one HIGH_CPU alert
and it is critical; in general the critical and warning CPU tiers are
mutually exclusive, with critical checked first, so at most one
HIGH_CPU alert is ever emitted, and whenever the critical threshold is
met the single HIGH_CPU alert is critical. -/
theorem C4_high_cpu_exclusive :
    (∀ (now : ℤ) (vm : ProxmoxVM), vm.cpu_usage = some (96 / 100) →
      ((evaluate_vm defaultAlertConfig now vm).filter
          (fun a => a.alert_type == AlertType.high_cpu)).map (fun a => a.severity)
        = [AlertSeverity.critical]) ∧
    (∀ (cfg : AlertConfig) (now : ℤ) (vm : ProxmoxVM),
      ((evaluate_vm cfg now vm).filter
          (fun a => a.alert_type == AlertType.high_cpu)).length ≤ 1 ∧
      (∀ u : ℚ, vm.cpu_usage = some u → u * 100 ≥ cfg.cpu_critical_threshold →
        ((evaluate_vm cfg now vm).filter
            (fun a => a.alert_type == AlertType.high_cpu)).map (fun a => a.severity)
          = [AlertSeverity.critical])) := by
  have hgen : ∀ (cfg : AlertConfig) (now : ℤ) (vm : ProxmoxVM) (u : ℚ),
      vm.cpu_usage = some u → u * 100 ≥ cfg.cpu_critical_threshold →
      ((evaluate_vm cfg now vm).filter
          (fun a => a.alert_type == AlertType.high_cpu)).map (fun a => a.severity)
        = [AlertSeverity.critical] := by
    intro cfg now vm u hu hc
    rw [evaluate_vm_filter_highCpu]
    unfold cpuAlerts
    rw [hu]
    dsimp only
    rw [if_pos hc]
    rfl
  refine ⟨?_, ?_⟩
  · intro now vm hu
    exact hgen defaultAlertConfig now vm (96 / 100) hu (by norm_num [defaultAlertConfig])
  · intro cfg now vm
    refine ⟨?_, fun u hu hc => hgen cfg now vm u hu hc⟩
    rw [evaluate_vm_filter_highCpu]
    unfold cpuAlerts
    cases vm.cpu_usage with
    | none => simp
    | some q =>
      dsimp only
      split_ifs <;> simp

/-- C4 witness: at 96% CPU with the default configuration the HIGH_CPU
alerts of the evaluation are exactly one critical alert. -/
theorem C4_high_cpu_exclusive_witness :
    ((evaluate_vm defaultAlertConfig 0 vm96).filter
        (fun a => a.alert_type == AlertType.high_cpu)).map (fun a => a.severity)
      = [AlertSeverity.critical] :=
  C4_high_cpu_exclusive.1 0 vm96 rfl

/-- C5 counterexample: alert evaluation is not a function of the
resource metrics and thresholds alone — the same resource evaluated
under the same default thresholds at two different clock readings
yields different alert lists, because backup age is computed from
`datetime.now()`. -/
theorem C5_not_time_independent :
    evaluate_vm defaultAlertConfig 1 vmClock
      ≠ evaluate_vm defaultAlertConfig (1 + 30 * 86400) vmClock := by
  decide

/-- C5 amended: alert evaluation is a pure, deterministic function of
the resource's metric fields (cpu_usage, memory_usage, backup_info,
status), the configured thresholds, and the evaluation time: two
resources agreeing on those fields evaluate to the same ordered alert
list at the same instant, independently of every other attribute. -/
theorem C5_deterministic_in_metrics (cfg : AlertConfig) (now : ℤ) (v1 v2 : ProxmoxVM)
    (h1 : v1.cpu_usage = v2.cpu_usage) (h2 : v1.memory_usage = v2.memory_usage)
    (h3 : v1.backup_info = v2.backup_info) (h4 : v1.status = v2.status) :
    evaluate_vm cfg now v1 = evaluate_vm cfg now v2 := by
  unfold evaluate_vm
  rw [h1, h2, h3, h4]

/-- C5 witness: two VMs differing in name, node, id and tags but
agreeing on the metric fields evaluate identically. -/
theorem C5_deterministic_in_metrics_witness :
    evaluate_vm defaultAlertConfig 5 (sampleVM 100)
      = evaluate_vm defaultAlertConfig 5
        { vmid := 4444, name := "renamed", node := "other", status := .running,
          tags := ["x"] } :=
  C5_deterministic_in_metrics defaultAlertConfig 5 _ _ rfl rfl rfl rfl

/-- C6 counterexample: a resource with no recorded backup at all — its
`backup_info` attribute is `None` because no backup data was collected
for it — yields no NO_BACKUP alert (indeed no alert whatsoever),
because the backup rule is guarded by `if vm.backup_info:`. -/
theorem C6_no_backup_info_no_alert :
    (sampleVM 3).backup_info = none ∧
    (evaluate_vm defaultAlertConfig 0 (sampleVM 3)).filter
        (fun a => a.alert_type == AlertType.no_backup) = [] := by
  exact ⟨rfl, rfl⟩

/-- C6 amended: for every resource that carries a backup summary in
which no backup age can be determined (no backups, or none with a
usable timestamp), alert evaluation yields exactly one backup alert, a
critical NO_BACKUP; a resource whose backup summary is absent yields
no backup alert at all. -/
theorem C6_no_backup_critical (cfg : AlertConfig) (now : ℤ) (vm : ProxmoxVM)
    (bi : BackupInfo) (hbi : vm.backup_info = some bi)
    (hage : bi.last_backup_age_days now = none) :
    ((evaluate_vm cfg now vm).filter
        (fun a => a.alert_type == AlertType.no_backup)).map (fun a => a.severity)
      = [AlertSeverity.critical] := by
  rw [evaluate_vm_filter_backup cfg now vm _ (Or.inl rfl)]
  unfold backupAlerts
  rw [hbi]
  dsimp only
  rw [hage]
  rfl

/-- C6 witness: a VM with an empty backup list gets the critical
NO_BACKUP alert. -/
theorem C6_no_backup_critical_witness :
    ((evaluate_vm defaultAlertConfig 0 vmEmptyBackups).filter
        (fun a => a.alert_type == AlertType.no_backup)).map (fun a => a.severity)
      = [AlertSeverity.critical] :=
  C6_no_backup_critical defaultAlertConfig 0 vmEmptyBackups _ rfl rfl

/-- C7 counterexample: a resource whose most recent backup is
timestamped exactly 30 days before the evaluation instant, evaluated
with the default `backup_warning_days=7, backup_critical_days=30`,
yields no OLD_BACKUP alert when that timestamp happens to be 0 (the
Unix epoch): the `if self.backup_time:` guard treats the zero
timestamp as missing, so the resource gets NO_BACKUP instead. -/
theorem C7_epoch_backup_no_old_alert :
    (∃ bi b, vmEpochBackup.backup_info = some bi ∧ bi.last_backup = some b ∧
      b.backup_time = some (2592000 - 30 * 86400)) ∧
    (evaluate_vm defaultAlertConfig 2592000 vmEpochBackup).filter
        (fun a => a.alert_type == AlertType.old_backup) = [] := by
  constructor
  · exact ⟨_, _, rfl, rfl, by decide⟩
  · decide

/-- C7 amended: for every resource whose most recent backup carries a
nonzero timestamp exactly 30 days (2 592 000 seconds) before the
evaluation instant, evaluation with backup_warning_days=7 and
backup_critical_days=30 computes the age as floor division of the
elapsed seconds by 86 400 — here exactly 30 — and, the comparison
being inclusive (age ≥ threshold), yields exactly one OLD_BACKUP
alert, of severity critical; in general any determinable age at or
above the critical threshold yields exactly the critical OLD_BACKUP
alert. -/
theorem C7_old_backup_inclusive :
    (∀ (cfg : AlertConfig) (now t : ℤ) (vm : ProxmoxVM) (bi : BackupInfo) (b : Backup),
      cfg.backup_warning_days = 7 → cfg.backup_critical_days = 30 →
      vm.backup_info = some bi → bi.last_backup = some b →
      b.backup_time = some t → t = now - 30 * 86400 → t ≠ 0 →
      bi.last_backup_age_days now = some 30 ∧
      ((evaluate_vm cfg now vm).filter
          (fun a => a.alert_type == AlertType.old_backup)).map (fun a => a.severity)
        = [AlertSeverity.critical]) ∧
    (∀ (cfg : AlertConfig) (now : ℤ) (vm : ProxmoxVM) (bi : BackupInfo) (age : ℤ),
      vm.backup_info = some bi → bi.last_backup_age_days now = some age →
      age ≥ cfg.backup_critical_days →
      ((evaluate_vm cfg now vm).filter
          (fun a => a.alert_type == AlertType.old_backup)).map (fun a => a.severity)
        = [AlertSeverity.critical]) := by
  have hgen : ∀ (cfg : AlertConfig) (now : ℤ) (vm : ProxmoxVM) (bi : BackupInfo) (age : ℤ),
      vm.backup_info = some bi → bi.last_backup_age_days now = some age →
      age ≥ cfg.backup_critical_days →
      ((evaluate_vm cfg now vm).filter
          (fun a => a.alert_type == AlertType.old_backup)).map (fun a => a.severity)
        = [AlertSeverity.critical] := by
    intro cfg now vm bi age hbi hage hc
    rw [evaluate_vm_filter_backup cfg now vm _ (Or.inr rfl)]
    unfold backupAlerts
    rw [hbi]
    dsimp only
    rw [hage]
    dsimp only
    rw [if_pos hc]
    rfl
  refine ⟨?_, hgen⟩
  intro cfg now t vm bi b hw hc hbi hlast ht hdt hnz
  have hage : bi.last_backup_age_days now = some 30 := by
    rw [last_backup_age_of_time bi b now t hlast ht hnz]
    congr 1
    rw [hdt]
    have : now - (now - 30 * 86400) = 2592000 := by ring
    rw [this]
    decide
  exact ⟨hage, hgen cfg now vm bi 30 hbi hage (by rw [hc])⟩

/-- C7 witness: a backup timestamped at second 1 evaluated at second
2 592 001 (exactly 30 days later) with the default thresholds is 30
days old and yields the critical OLD_BACKUP alert. -/
theorem C7_old_backup_inclusive_witness :
    vmClock.backup_info.isSome ∧
    (((evaluate_vm defaultAlertConfig 2592001 vmClock).filter
        (fun a => a.alert_type == AlertType.old_backup)).map (fun a => a.severity)
      = [AlertSeverity.critical]) := by
  refine ⟨rfl, ?_⟩
  exact (C7_old_backup_inclusive.1 defaultAlertConfig 2592001 1 vmClock _ _
    rfl rfl rfl rfl rfl (by decide) (by decide)).2

/-- C10: a storage pool whose total byte count is absent or zero, or
whose used byte count is absent or zero, has an unknown (None) free
percentage — in particular a completely empty pool reports unknown
usage rather than 0% — and storage alert evaluation yields no alert
for it regardless of the configured thresholds. -/
theorem C10_unknown_storage_no_alert (cfg : AlertConfig) (p : StoragePool)
    (h : p.total_bytes = none ∨ p.total_bytes = some 0 ∨
      p.used_bytes = none ∨ p.used_bytes = some 0) :
    p.free_percent = none ∧ evaluate_storage cfg p = [] := by
  have hu : p.usage_percent = none := by
    unfold StoragePool.usage_percent
    rw [if_neg]
    rintro ⟨h1, h2⟩
    rcases h with h | h | h | h
    · rw [h] at h1; simp [optIntTruthy] at h1
    · rw [h] at h1; simp [optIntTruthy] at h1
    · rw [h] at h2; simp [optIntTruthy] at h2
    · rw [h] at h2; simp [optIntTruthy] at h2
  have hf : p.free_percent = none := by
    unfold StoragePool.free_percent
    rw [hu]
  refine ⟨hf, ?_⟩
  unfold evaluate_storage
  rw [hf]

/-- C10 witness: an empty pool (zero used bytes) has unknown free
percentage and no LOW_STORAGE alert even with default thresholds. -/
theorem C10_unknown_storage_no_alert_witness :
    poolEmptyUsed.free_percent = none ∧
    evaluate_storage defaultAlertConfig poolEmptyUsed = [] :=
  C10_unknown_storage_no_alert defaultAlertConfig poolEmptyUsed
    (Or.inr (Or.inr (Or.inr rfl)))

/-- C1: in every incremental reconciliation run (nonempty recovered
prior map, the recovered entries carrying usable block ids, and — as
the data model guarantees — distinct resource keys on both sides), the
set of resource keys receiving a decision (update-in-place, insert-new
or flag-as-deleted) is exactly the union of the current inventory keys
and the recovered prior keys, with exactly one decision per distinct
key: no duplicates and no omissions. -/
theorem C1_decision_keys_union (cfg : SyncConfig) (acfg : AlertConfig) (ctx : RenderCtx)
    (cluster : ProxmoxCluster) (existing : ExistingBlocks)
    (hne : existing ≠ [])
    (hb : ∀ e ∈ existing, optStrTruthy e.2.blockId)
    (hcur : (currentIds cluster.vms cluster.containers).Nodup)
    (hex : (existing.map Prod.fst).Nodup) :
    sync_incremental cfg acfg ctx cluster existing =
      .incremental (incrementalOps ctx cluster.vms cluster.containers existing) ∧
    ((incrementalOps ctx cluster.vms cluster.containers existing).map Op.rid).Nodup ∧
    (∀ k : RId,
      k ∈ (incrementalOps ctx cluster.vms cluster.containers existing).map Op.rid ↔
        (k ∈ currentIds cluster.vms cluster.containers ∨ k ∈ existing.map Prod.fst)) := by
  refine ⟨?_, ?_, ?_⟩
  · unfold sync_incremental
    rw [if_neg (by simpa using hne)]
  · rw [incrementalOps_rids ctx cluster.vms cluster.containers existing hb]
    rw [List.nodup_append]
    refine ⟨hcur, hex.filter _, ?_⟩
    intro k hk1 hk2
    rw [List.mem_filter] at hk2
    have := hk2.2
    simp only [decide_eq_true_eq] at this
    exact this hk1
  · intro k
    rw [incrementalOps_rids ctx cluster.vms cluster.containers existing hb,
      List.mem_append, List.mem_filter]
    constructor
    · rintro (h | ⟨h, -⟩)
      · left; exact h
      · right; exact h
    · rintro (h | h)
      · left; exact h
      · by_cases hc : k ∈ currentIds cluster.vms cluster.containers
        · left; exact hc
        · right; exact ⟨h, by simpa using hc⟩

/-- C1 witness: a run with current inventory VM 100 and container 200
against a prior document recording only VM 999 issues decisions for
exactly the keys vm-100, ct-200 and vm-999. -/
theorem C1_decision_keys_union_witness :
    sync_incremental {} {} sampleCtx
        { vms := [sampleVM 100], containers := [sampleCT 200] }
        [(RId.vm 999, sampleBD)] =
      .incremental (incrementalOps sampleCtx [sampleVM 100] [sampleCT 200]
        [(RId.vm 999, sampleBD)]) ∧
    ((incrementalOps sampleCtx [sampleVM 100] [sampleCT 200]
        [(RId.vm 999, sampleBD)]).map Op.rid).Nodup ∧
    (∀ k : RId,
      k ∈ (incrementalOps sampleCtx [sampleVM 100] [sampleCT 200]
          [(RId.vm 999, sampleBD)]).map Op.rid ↔
        (k ∈ currentIds [sampleVM 100] [sampleCT 200] ∨
          k ∈ ([(RId.vm 999, sampleBD)].map Prod.fst))) :=
  C1_decision_keys_union {} {} sampleCtx
    { vms := [sampleVM 100], containers := [sampleCT 200] }
    [(RId.vm 999, sampleBD)]
    (by decide) (by decide) (by decide) (by decide)

/-- C9 counterexample: the incremental run does not process current
resources in ascending numeric id order — a current inventory listing
VM 200 before VM 100 is processed in that inventory order, so the
decision key sequence is vm-200, vm-100, ct-5 rather than the
ascending vm-100, vm-200, ct-5 the claim requires. -/
theorem C9_not_ascending_order :
    (incrementalOps sampleCtx [sampleVM 200, sampleVM 100] []
        [(RId.ct 5, sampleBD)]).map Op.rid
      = [RId.vm 200, RId.vm 100, RId.ct 5] ∧
    ([RId.vm 200, RId.vm 100, RId.ct 5] : List RId)
      ≠ [RId.vm 100, RId.vm 200, RId.ct 5] := by
  constructor
  · decide
  · decide

/-- C9 amended: decisions of the incremental reconciliation are
applied in a deterministic order, namely: current VMs in inventory
list order, then current containers in inventory list order, then
orphaned prior entries in recovered-document order (not sorted by
numeric id). -/
theorem C9_deterministic_order (ctx : RenderCtx) (vms : List ProxmoxVM)
    (cts : List ProxmoxContainer) (existing : ExistingBlocks)
    (hb : ∀ e ∈ existing, optStrTruthy e.2.blockId) :
    (incrementalOps ctx vms cts existing).map Op.rid =
      vms.map (fun v => RId.vm v.vmid) ++ cts.map (fun c => RId.ct c.vmid)
        ++ (existing.map Prod.fst).filter
            (fun k => decide (k ∉ currentIds vms cts)) := by
  rw [incrementalOps_rids ctx vms cts existing hb]
  unfold currentIds
  rw [List.append_assoc]

/-- C9 witness: the decision key order on a concrete run equals the
inventory order followed by the recovered-map order. -/
theorem C9_deterministic_order_witness :
    (incrementalOps sampleCtx [sampleVM 200, sampleVM 100] [sampleCT 5]
        [(RId.vm 100, sampleBD), (RId.ct 77, sampleBD)]).map Op.rid =
      [sampleVM 200, sampleVM 100].map (fun v => RId.vm v.vmid)
        ++ [sampleCT 5].map (fun c => RId.ct c.vmid)
        ++ ([(RId.vm 100, sampleBD), (RId.ct 77, sampleBD)].map Prod.fst).filter
            (fun k => decide (k ∉ currentIds [sampleVM 200, sampleVM 100] [sampleCT 5])) :=
  C9_deterministic_order sampleCtx [sampleVM 200, sampleVM 100] [sampleCT 5]
    [(RId.vm 100, sampleBD), (RId.ct 77, sampleBD)] (by decide)

/-- C2: for every resource present both in the current inventory and
in the prior document whose prior entry carries non-empty annotation
text, the Update path substitutes that exact annotation string — the
very string the extraction produced, unmodified — in place of the
default placeholder notes text of the freshly rendered detail page,
and the annotation appears byte-for-byte (as a contiguous character
run) in the rendered output; this holds for VMs and containers
alike, and the resulting update operation is part of the run's
operation sequence. -/
theorem C2_annotation_preserved :
    (∀ (ctx : RenderCtx) (existing : ExistingBlocks) (vm : ProxmoxVM)
        (bd : BlockData) (bid A : String),
      alookup existing (RId.vm vm.vmid) = some bd →
      bd.blockId = some bid → bid ≠ "" →
      alookup (preservedNotes existing) (RId.vm vm.vmid) = some A → A ≠ "" →
      vmOp ctx existing (preservedNotes existing) vm =
        [Op.updateSub (RId.vm vm.vmid) bid
          (pyReplace (formatVmDetail ctx vm) notesPlaceholder A)] ∧
      A.data <:+: (pyReplace (formatVmDetail ctx vm) notesPlaceholder A).data ∧
      (∀ (vms : List ProxmoxVM) (cts : List ProxmoxContainer), vm ∈ vms →
        Op.updateSub (RId.vm vm.vmid) bid
            (pyReplace (formatVmDetail ctx vm) notesPlaceholder A)
          ∈ incrementalOps ctx vms cts existing)) ∧
    (∀ (ctx : RenderCtx) (existing : ExistingBlocks) (ct : ProxmoxContainer)
        (bd : BlockData) (bid A : String),
      alookup existing (RId.ct ct.vmid) = some bd →
      bd.blockId = some bid → bid ≠ "" →
      alookup (preservedNotes existing) (RId.ct ct.vmid) = some A → A ≠ "" →
      ctOp ctx existing (preservedNotes existing) ct =
        [Op.updateSub (RId.ct ct.vmid) bid
          (pyReplace (formatContainerDetail ctx ct) notesPlaceholder A)] ∧
      A.data <:+: (pyReplace (formatContainerDetail ctx ct) notesPlaceholder A).data) := by
  have hplh : notesPlaceholder.data ≠ [] := by decide
  constructor
  · intro ctx existing vm bd bid A hf hbid hbne hA hAne
    have hop : vmOp ctx existing (preservedNotes existing) vm =
        [Op.updateSub (RId.vm vm.vmid) bid
          (pyReplace (formatVmDetail ctx vm) notesPlaceholder A)] := by
      simp [vmOp, hf, hbid, hA, hbne, hAne]
    refine ⟨hop, ?_, ?_⟩
    · exact pyReplace_infix (formatVmDetail ctx vm) notesPlaceholder A hplh
        (notesPlaceholder_infix_vmDetail ctx vm)
    · intro vms cts hm
      unfold incrementalOps
      rw [List.mem_append, List.mem_append]
      left; left
      rw [List.mem_flatMap]
      exact ⟨vm, hm, by rw [hop]; simp⟩
  · intro ctx existing ct bd bid A hf hbid hbne hA hAne
    have hop : ctOp ctx existing (preservedNotes existing) ct =
        [Op.updateSub (RId.ct ct.vmid) bid
          (pyReplace (formatContainerDetail ctx ct) notesPlaceholder A)] := by
      simp [ctOp, hf, hbid, hA, hbne, hAne]
    refine ⟨hop, ?_⟩
    exact pyReplace_infix (formatContainerDetail ctx ct) notesPlaceholder A hplh
      (notesPlaceholder_infix_ctDetail ctx ct)

/-- C2 witness: VM 100 matched against a prior entry whose subpage
carries the annotation `keep backups weekly` yields the update
operation whose content is the detail page with the placeholder
replaced by that exact annotation, and the annotation is a contiguous
substring of the content. -/
theorem C2_annotation_preserved_witness :
    vmOp sampleCtx [(RId.vm 100, sampleBDNotes)]
        (preservedNotes [(RId.vm 100, sampleBDNotes)]) (sampleVM 100) =
      [Op.updateSub (RId.vm 100) "blk2"
        (pyReplace (formatVmDetail sampleCtx (sampleVM 100)) notesPlaceholder
          "keep backups weekly")] ∧
    ("keep backups weekly" : String).data <:+:
      (pyReplace (formatVmDetail sampleCtx (sampleVM 100)) notesPlaceholder
        "keep backups weekly").data := by
  have h := (C2_annotation_preserved.1 sampleCtx [(RId.vm 100, sampleBDNotes)]
    (sampleVM 100) sampleBDNotes "blk2" "keep backups weekly"
    (by decide) rfl (by decide) (by decide) (by decide))
  exact ⟨h.1, h.2.1⟩

theorem effTags_of_ne_nil (tags : List String) (h : tags ≠ []) : effTags tags = tags := by
  unfold effTags
  rw [if_neg (by simpa using h)]

theorem effTags_nil : effTags [] = ["Untagged"] := rfl

/-- C8 counterexample: a resource with one label appears under the
`Untagged` bucket when that label is literally the string `Untagged`,
contradicting "a resource with N labels appears ... nowhere under
Untagged". -/
theorem C8_untagged_label_in_untagged_bucket :
    vmUntagged.tags.length = 1 ∧
    vmUntagged ∈ bucketVms (group_resources_by_tag [vmUntagged] []) "Untagged" := by
  constructor
  · rfl
  · rw [mem_bucketVms_group_by_tag]
    refine ⟨by simp, ?_⟩
    rw [effTags_of_ne_nil _ (by decide)]
    decide

/-- C8 amended: in label grouping, a resource with a non-empty label
set appears exactly in the buckets of its labels — so it appears under
`Untagged` only when `Untagged` is literally one of its labels — and a
resource with zero labels appears exactly under the `Untagged` bucket;
bucket iteration order is sorted by the pair (is-Untagged flag,
lowercased label), i.e. alphabetically by label case-insensitively
with `Untagged` always last regardless of alphabetical position. -/
theorem C8_label_grouping (vms : List ProxmoxVM) (cts : List ProxmoxContainer) :
    (∀ vm ∈ vms, vm.tags ≠ [] →
      (∀ t, vm ∈ bucketVms (group_resources_by_tag vms cts) t ↔ t ∈ vm.tags)) ∧
    (∀ vm ∈ vms, vm.tags = [] →
      (∀ t, vm ∈ bucketVms (group_resources_by_tag vms cts) t ↔ t = "Untagged")) ∧
    (∀ ct ∈ cts, ct.tags ≠ [] →
      (∀ t, ct ∈ bucketCts (group_resources_by_tag vms cts) t ↔ t ∈ ct.tags)) ∧
    (∀ ct ∈ cts, ct.tags = [] →
      (∀ t, ct ∈ bucketCts (group_resources_by_tag vms cts) t ↔ t = "Untagged")) ∧
    List.Sorted tagLe (sortedTagLabels (group_resources_by_tag vms cts)) ∧
    ("Untagged" ∈ sortedTagLabels (group_resources_by_tag vms cts) →
      (sortedTagLabels (group_resources_by_tag vms cts)).getLast?
        = some "Untagged") := by
  refine ⟨?_, ?_, ?_, ?_, ?_, ?_⟩
  · intro vm hm hne t
    rw [mem_bucketVms_group_by_tag, effTags_of_ne_nil _ hne]
    constructor
    · rintro ⟨-, ht⟩; exact ht
    · intro ht; exact ⟨hm, ht⟩
  · intro vm hm hnil t
    rw [mem_bucketVms_group_by_tag, hnil, effTags_nil]
    constructor
    · rintro ⟨-, ht⟩; simpa using ht
    · intro ht; subst ht; exact ⟨hm, by simp⟩
  · intro ct hm hne t
    rw [mem_bucketCts_group_by_tag, effTags_of_ne_nil _ hne]
    constructor
    · rintro ⟨-, ht⟩; exact ht
    · intro ht; exact ⟨hm, ht⟩
  · intro ct hm hnil t
    rw [mem_bucketCts_group_by_tag, hnil, effTags_nil]
    constructor
    · rintro ⟨-, ht⟩; simpa using ht
    · intro ht; subst ht; exact ⟨hm, by simp⟩
  · exact List.sorted_insertionSort tagLe _
  · intro hmem
    exact sorted_tagLe_untagged_last _ (List.sorted_insertionSort tagLe _) hmem

/-- C8 witness: with a `prod`,`web`-tagged VM and an untagged VM, the
tagged one is in the `prod` bucket and not under `Untagged`, the
untagged one is only under `Untagged`, and `Untagged` sorts last. -/
theorem C8_label_grouping_witness :
    (vmProdWeb ∈ bucketVms (group_resources_by_tag [vmProdWeb, vmNoTags] []) "prod" ↔
      "prod" ∈ vmProdWeb.tags) ∧
    (vmProdWeb ∈ bucketVms (group_resources_by_tag [vmProdWeb, vmNoTags] []) "Untagged" ↔
      "Untagged" ∈ vmProdWeb.tags) ∧
    (vmNoTags ∈ bucketVms (group_resources_by_tag [vmProdWeb, vmNoTags] []) "Untagged" ↔
      "Untagged" = "Untagged") ∧
    ("Untagged" ∈ sortedTagLabels (group_resources_by_tag [vmProdWeb, vmNoTags] []) →
      (sortedTagLabels (group_resources_by_tag [vmProdWeb, vmNoTags] [])).getLast?
        = some "Untagged") := by
  have h := C8_label_grouping [vmProdWeb, vmNoTags] []
  refine ⟨?_, ?_, ?_, h.2.2.2.2.2⟩
  · exact h.1 vmProdWeb (by simp) (by decide) "prod"
  · exact h.1 vmProdWeb (by simp) (by decide) "Untagged"
  · exact h.2.1 vmNoTags (by simp) (by decide) "Untagged"

theorem createResource_mem_vmSection (ctx : RenderCtx) (vms : List ProxmoxVM)
    (vm : ProxmoxVM) (hm : vm ∈ vms) :
    FOp.createResource (RId.vm vm.vmid)
        ("### " ++ alertIndicatorVm vm ++ vm.display_name) (formatVmDetail ctx vm)
      ∈ syncVmSectionOps ctx vms := by
  unfold syncVmSectionOps
  have hne : ¬ vms.isEmpty = true := by
    rw [List.isEmpty_iff]
    exact List.ne_nil_of_mem hm
  rw [if_neg hne]
  rw [List.mem_cons]
  right
  have hm2 : vm ∈ sortVmsByVmid vms := by
    unfold sortVmsByVmid
    exact (List.perm_insertionSort _ vms).mem_iff.mpr hm
  exact List.mem_map_of_mem _ hm2

theorem createResource_mem_ctSection (ctx : RenderCtx) (cts : List ProxmoxContainer)
    (ct : ProxmoxContainer) (hm : ct ∈ cts) :
    FOp.createResource (RId.ct ct.vmid)
        ("### " ++ alertIndicatorCt ct ++ ct.display_name) (formatContainerDetail ctx ct)
      ∈ syncCtSectionOps ctx cts := by
  unfold syncCtSectionOps
  have hne : ¬ cts.isEmpty = true := by
    rw [List.isEmpty_iff]
    exact List.ne_nil_of_mem hm
  rw [if_neg hne]
  rw [List.mem_cons]
  right
  have hm2 : ct ∈ sortCtsByVmid cts := by
    unfold sortCtsByVmid
    exact (List.perm_insertionSort _ cts).mem_iff.mpr hm
  exact List.mem_map_of_mem _ hm2

theorem createResource_mem_nodeOps_vm (ctx : RenderCtx) (cluster : ProxmoxCluster)
    (vm : ProxmoxVM) (hm : vm ∈ cluster.vms) (nd : ProxmoxNode)
    (hnd : nd ∈ cluster.nodes) (hname : nd.name = vm.node) :
    ∃ h d, FOp.createResource (RId.vm vm.vmid) h d ∈ syncGroupedByNodeOps ctx cluster := by
  have hvm : vm ∈ cluster.vms.filter (fun v => v.node == nd.name) := by
    rw [List.mem_filter]
    exact ⟨hm, by simp [hname]⟩
  refine ⟨"### " ++ alertIndicatorVm vm ++ vm.display_name, formatVmDetail ctx vm, ?_⟩
  unfold syncGroupedByNodeOps
  rw [List.mem_flatMap]
  refine ⟨nd, hnd, ?_⟩
  simp only [List.mem_cons, List.mem_append]
  exact Or.inr (Or.inl (Or.inl (createResource_mem_vmSection ctx _ vm hvm)))

theorem createResource_mem_nodeOps_ct (ctx : RenderCtx) (cluster : ProxmoxCluster)
    (ct : ProxmoxContainer) (hm : ct ∈ cluster.containers) (nd : ProxmoxNode)
    (hnd : nd ∈ cluster.nodes) (hname : nd.name = ct.node) :
    ∃ h d, FOp.createResource (RId.ct ct.vmid) h d ∈ syncGroupedByNodeOps ctx cluster := by
  have hct : ct ∈ cluster.containers.filter (fun c => c.node == nd.name) := by
    rw [List.mem_filter]
    exact ⟨hm, by simp [hname]⟩
  refine ⟨"### " ++ alertIndicatorCt ct ++ ct.display_name, formatContainerDetail ctx ct, ?_⟩
  unfold syncGroupedByNodeOps
  rw [List.mem_flatMap]
  refine ⟨nd, hnd, ?_⟩
  simp only [List.mem_cons, List.mem_append]
  exact Or.inr (Or.inl (Or.inr (createResource_mem_ctSection ctx _ ct hct)))

theorem createResource_mem_tagOps_vm (ctx : RenderCtx) (cluster : ProxmoxCluster)
    (vm : ProxmoxVM) (hm : vm ∈ cluster.vms) :
    ∃ h d, FOp.createResource (RId.vm vm.vmid) h d ∈ syncGroupedByTagOps ctx cluster := by
  obtain ⟨t, ht⟩ : ∃ t, t ∈ effTags vm.tags := by
    unfold effTags
    split
    · exact ⟨"Untagged", by simp⟩
    · rename_i h
      exact List.exists_mem_of_ne_nil _ (by simpa using h)
  have hvb : vm ∈ bucketVms (group_resources_by_tag cluster.vms cluster.containers) t :=
    (mem_bucketVms_group_by_tag _ _ _ _).mpr ⟨hm, ht⟩
  have hkeys : t ∈ (group_resources_by_tag cluster.vms cluster.containers).map Prod.fst :=
    mem_keys_of_bucketVms_ne_nil _ _ (List.ne_nil_of_mem hvb)
  have hsorted : t ∈ sortedTagLabels (group_resources_by_tag cluster.vms cluster.containers) := by
    unfold sortedTagLabels
    exact (List.perm_insertionSort _ _).mem_iff.mpr hkeys
  refine ⟨"### " ++ alertIndicatorVm vm ++ vm.display_name, formatVmDetail ctx vm, ?_⟩
  unfold syncGroupedByTagOps
  rw [List.mem_flatMap]
  refine ⟨t, hsorted, ?_⟩
  simp only [List.mem_cons, List.mem_append]
  exact Or.inr (Or.inl (Or.inl (createResource_mem_vmSection ctx _ vm hvb)))

theorem createResource_mem_tagOps_ct (ctx : RenderCtx) (cluster : ProxmoxCluster)
    (ct : ProxmoxContainer) (hm : ct ∈ cluster.containers) :
    ∃ h d, FOp.createResource (RId.ct ct.vmid) h d ∈ syncGroupedByTagOps ctx cluster := by
  obtain ⟨t, ht⟩ : ∃ t, t ∈ effTags ct.tags := by
    unfold effTags
    split
    · exact ⟨"Untagged", by simp⟩
    · rename_i h
      exact List.exists_mem_of_ne_nil _ (by simpa using h)
  have hcb : ct ∈ bucketCts (group_resources_by_tag cluster.vms cluster.containers) t :=
    (mem_bucketCts_group_by_tag _ _ _ _).mpr ⟨hm, ht⟩
  have hkeys : t ∈ (group_resources_by_tag cluster.vms cluster.containers).map Prod.fst :=
    mem_keys_of_bucketCts_ne_nil _ _ (List.ne_nil_of_mem hcb)
  have hsorted : t ∈ sortedTagLabels (group_resources_by_tag cluster.vms cluster.containers) := by
    unfold sortedTagLabels
    exact (List.perm_insertionSort _ _).mem_iff.mpr hkeys
  refine ⟨"### " ++ alertIndicatorCt ct ++ ct.display_name, formatContainerDetail ctx ct, ?_⟩
  unfold syncGroupedByTagOps
  rw [List.mem_flatMap]
  refine ⟨t, hsorted, ?_⟩
  simp only [List.mem_cons, List.mem_append]
  exact Or.inr (Or.inl (Or.inr (createResource_mem_ctSection ctx _ ct hcb)))

theorem createResource_mem_statusOps_vm (ctx : RenderCtx) (cluster : ProxmoxCluster)
    (vm : ProxmoxVM) (hm : vm ∈ cluster.vms) :
    ∃ h d, FOp.createResource (RId.vm vm.vmid) h d ∈ syncGroupedByStatusOps ctx cluster := by
  have hvb : vm ∈ bucketVms (group_resources_by_status cluster.vms cluster.containers)
      (statusKey vm.status) := by
    rw [bucketVms_group_by_status, List.mem_flatMap]
    exact ⟨vm, hm, by simp⟩
  have hkeys : statusKey vm.status
      ∈ (group_resources_by_status cluster.vms cluster.containers).map Prod.fst :=
    mem_keys_of_bucketVms_ne_nil _ _ (List.ne_nil_of_mem hvb)
  have hsorted : statusKey vm.status
      ∈ sortedStatusLabels (group_resources_by_status cluster.vms cluster.containers) := by
    unfold sortedStatusLabels
    exact (List.perm_insertionSort _ _).mem_iff.mpr hkeys
  refine ⟨"### " ++ alertIndicatorVm vm ++ vm.display_name, formatVmDetail ctx vm, ?_⟩
  unfold syncGroupedByStatusOps
  rw [List.mem_flatMap]
  refine ⟨statusKey vm.status, hsorted, ?_⟩
  simp only [List.mem_cons, List.mem_append]
  exact Or.inr (Or.inl (Or.inl (createResource_mem_vmSection ctx _ vm hvb)))

theorem createResource_mem_statusOps_ct (ctx : RenderCtx) (cluster : ProxmoxCluster)
    (ct : ProxmoxContainer) (hm : ct ∈ cluster.containers) :
    ∃ h d, FOp.createResource (RId.ct ct.vmid) h d ∈ syncGroupedByStatusOps ctx cluster := by
  have hcb : ct ∈ bucketCts (group_resources_by_status cluster.vms cluster.containers)
      (statusKey ct.status) := by
    rw [bucketCts_group_by_status, List.mem_flatMap]
    exact ⟨ct, hm, by simp⟩
  have hkeys : statusKey ct.status
      ∈ (group_resources_by_status cluster.vms cluster.containers).map Prod.fst :=
    mem_keys_of_bucketCts_ne_nil _ _ (List.ne_nil_of_mem hcb)
  have hsorted : statusKey ct.status
      ∈ sortedStatusLabels (group_resources_by_status cluster.vms cluster.containers) := by
    unfold sortedStatusLabels
    exact (List.perm_insertionSort _ _).mem_iff.mpr hkeys
  refine ⟨"### " ++ alertIndicatorCt ct ++ ct.display_name, formatContainerDetail ctx ct, ?_⟩
  unfold syncGroupedByStatusOps
  rw [List.mem_flatMap]
  refine ⟨statusKey ct.status, hsorted, ?_⟩
  simp only [List.mem_cons, List.mem_append]
  exact Or.inr (Or.inl (Or.inr (createResource_mem_ctSection ctx _ ct hcb)))

theorem createResource_mem_fullSync_vm (cfg : SyncConfig) (acfg : AlertConfig)
    (ctx : RenderCtx) (cluster : ProxmoxCluster) (clear_first : Bool) (vm : ProxmoxVM)
    (hm : vm ∈ cluster.vms)
    (hnode : cfg.group_by ≠ "tag" → cfg.group_by ≠ "status" →
      ∃ nd ∈ cluster.nodes, nd.name = vm.node) :
    ∃ h d, FOp.createResource (RId.vm vm.vmid) h d
      ∈ fullSyncOps cfg acfg ctx cluster clear_first := by
  set cl : ProxmoxCluster :=
    if cfg.show_alerts then evaluateAlertsCluster acfg ctx.now cluster else cluster with hcl
  have hvm : ∃ vm2 ∈ cl.vms, vm2.vmid = vm.vmid ∧ vm2.node = vm.node := by
    rw [hcl]
    by_cases hsa : cfg.show_alerts
    · rw [if_pos hsa]
      refine ⟨{ vm with alerts := evaluate_vm acfg ctx.now vm }, ?_, rfl, rfl⟩
      unfold evaluateAlertsCluster
      dsimp only
      exact List.mem_map_of_mem _ hm
    · rw [if_neg hsa]
      exact ⟨vm, hm, rfl, rfl⟩
  have hnodes : cl.nodes = cluster.nodes := by
    rw [hcl]
    by_cases hsa : cfg.show_alerts
    · rw [if_pos hsa]; rfl
    · rw [if_neg hsa]
  obtain ⟨vm2, hm2, hid, hnode2⟩ := hvm
  have hcov : ∃ h d, FOp.createResource (RId.vm vm2.vmid) h d ∈
      (if cfg.group_by == "tag" then syncGroupedByTagOps ctx cl
       else if cfg.group_by == "status" then syncGroupedByStatusOps ctx cl
       else syncGroupedByNodeOps ctx cl) := by
    by_cases htag : cfg.group_by == "tag"
    · rw [if_pos htag]
      exact createResource_mem_tagOps_vm ctx cl vm2 hm2
    · rw [if_neg htag]
      by_cases hst : cfg.group_by == "status"
      · rw [if_pos hst]
        exact createResource_mem_statusOps_vm ctx cl vm2 hm2
      · rw [if_neg hst]
        obtain ⟨nd, hnd, hname⟩ := hnode (by simpa using htag) (by simpa using hst)
        exact createResource_mem_nodeOps_vm ctx cl vm2 hm2 nd
          (by rw [hnodes]; exact hnd) (by rw [hnode2]; exact hname)
  obtain ⟨h, d, hmem⟩ := hcov
  refine ⟨h, d, ?_⟩
  rw [hid] at hmem
  unfold fullSyncOps
  rw [← hcl]
  simp only [List.mem_append]
  exact Or.inl (Or.inr hmem)

theorem createResource_mem_fullSync_ct (cfg : SyncConfig) (acfg : AlertConfig)
    (ctx : RenderCtx) (cluster : ProxmoxCluster) (clear_first : Bool)
    (ct : ProxmoxContainer) (hm : ct ∈ cluster.containers)
    (hnode : cfg.group_by ≠ "tag" → cfg.group_by ≠ "status" →
      ∃ nd ∈ cluster.nodes, nd.name = ct.node) :
    ∃ h d, FOp.createResource (RId.ct ct.vmid) h d
      ∈ fullSyncOps cfg acfg ctx cluster clear_first := by
  set cl : ProxmoxCluster :=
    if cfg.show_alerts then evaluateAlertsCluster acfg ctx.now cluster else cluster with hcl
  have hct : ∃ ct2 ∈ cl.containers, ct2.vmid = ct.vmid ∧ ct2.node = ct.node := by
    rw [hcl]
    by_cases hsa : cfg.show_alerts
    · rw [if_pos hsa]
      refine ⟨{ ct with alerts := evaluate_container acfg ctx.now ct }, ?_, rfl, rfl⟩
      unfold evaluateAlertsCluster
      dsimp only
      exact List.mem_map_of_mem _ hm
    · rw [if_neg hsa]
      exact ⟨ct, hm, rfl, rfl⟩
  have hnodes : cl.nodes = cluster.nodes := by
    rw [hcl]
    by_cases hsa : cfg.show_alerts
    · rw [if_pos hsa]; rfl
    · rw [if_neg hsa]
  obtain ⟨ct2, hm2, hid, hnode2⟩ := hct
  have hcov : ∃ h d, FOp.createResource (RId.ct ct2.vmid) h d ∈
      (if cfg.group_by == "tag" then syncGroupedByTagOps ctx cl
       else if cfg.group_by == "status" then syncGroupedByStatusOps ctx cl
       else syncGroupedByNodeOps ctx cl) := by
    by_cases htag : cfg.group_by == "tag"
    · rw [if_pos htag]
      exact createResource_mem_tagOps_ct ctx cl ct2 hm2
    · rw [if_neg htag]
      by_cases hst : cfg.group_by == "status"
      · rw [if_pos hst]
        exact createResource_mem_statusOps_ct ctx cl ct2 hm2
      · rw [if_neg hst]
        obtain ⟨nd, hnd, hname⟩ := hnode (by simpa using htag) (by simpa using hst)
        exact createResource_mem_nodeOps_ct ctx cl ct2 hm2 nd
          (by rw [hnodes]; exact hnd) (by rw [hnode2]; exact hname)
  obtain ⟨h, d, hmem⟩ := hcov
  refine ⟨h, d, ?_⟩
  rw [hid] at hmem
  unfold fullSyncOps
  rw [← hcl]
  simp only [List.mem_append]
  exact Or.inl (Or.inr hmem)

/-- C3: for every current inventory (including non-empty ones), when
the prior-entry map recovered from the document is empty,
`sync_incremental` takes the full-replace path — the full destructive
sync with `clear_first=True` — instead of emitting per-resource
incremental decisions: the resulting operation sequence starts by
clearing the entire document, and it creates a resource page for every
current VM and container (for the default node grouping this assumes
every resource's hosting node appears in the snapshot's node list; the
tag and status groupings cover every resource unconditionally). -/
theorem C3_empty_prior_full_replace (cfg : SyncConfig) (acfg : AlertConfig)
    (ctx : RenderCtx) (cluster : ProxmoxCluster)
    (hnode : cfg.group_by ≠ "tag" → cfg.group_by ≠ "status" →
      (∀ vm ∈ cluster.vms, ∃ nd ∈ cluster.nodes, nd.name = vm.node) ∧
      (∀ ct ∈ cluster.containers, ∃ nd ∈ cluster.nodes, nd.name = ct.node)) :
    sync_incremental cfg acfg ctx cluster [] =
      .fullReplace (fullSyncOps cfg acfg ctx cluster true) ∧
    (fullSyncOps cfg acfg ctx cluster true).head? = some FOp.clear ∧
    (∀ vm ∈ cluster.vms, ∃ h d,
      FOp.createResource (RId.vm vm.vmid) h d ∈ fullSyncOps cfg acfg ctx cluster true) ∧
    (∀ ct ∈ cluster.containers, ∃ h d,
      FOp.createResource (RId.ct ct.vmid) h d ∈ fullSyncOps cfg acfg ctx cluster true) := by
  refine ⟨rfl, rfl, ?_, ?_⟩
  · intro vm hm
    exact createResource_mem_fullSync_vm cfg acfg ctx cluster true vm hm
      (fun h1 h2 => (hnode h1 h2).1 vm hm)
  · intro ct hm
    exact createResource_mem_fullSync_ct cfg acfg ctx cluster true ct hm
      (fun h1 h2 => (hnode h1 h2).2 ct hm)

/-- C3 witness: a non-empty inventory (VM 100 and container 200 on
node pve1) with an empty recovered prior map goes through the
full-replace path, clearing first and creating both resources. -/
theorem C3_empty_prior_full_replace_witness :
    sync_incremental {} {} sampleCtx
        { nodes := [{ name := "pve1", status := "online" }],
          vms := [sampleVM 100], containers := [sampleCT 200] } [] =
      .fullReplace (fullSyncOps {} {} sampleCtx
        { nodes := [{ name := "pve1", status := "online" }],
          vms := [sampleVM 100], containers := [sampleCT 200] } true) ∧
    (fullSyncOps {} {} sampleCtx
        { nodes := [{ name := "pve1", status := "online" }],
          vms := [sampleVM 100], containers := [sampleCT 200] } true).head?
      = some FOp.clear ∧
    (∀ vm ∈ [sampleVM 100], ∃ h d,
      FOp.createResource (RId.vm vm.vmid) h d ∈ fullSyncOps {} {} sampleCtx
        { nodes := [{ name := "pve1", status := "online" }],
          vms := [sampleVM 100], containers := [sampleCT 200] } true) ∧
    (∀ ct ∈ [sampleCT 200], ∃ h d,
      FOp.createResource (RId.ct ct.vmid) h d ∈ fullSyncOps {} {} sampleCtx
        { nodes := [{ name := "pve1", status := "online" }],
          vms := [sampleVM 100], containers := [sampleCT 200] } true) :=
  C3_empty_prior_full_replace {} {} sampleCtx
    { nodes := [{ name := "pve1", status := "online" }],
      vms := [sampleVM 100], containers := [sampleCT 200] }
    (by
      intro _ _
      constructor
      · intro vm hm
        rw [List.mem_singleton] at hm
        subst hm
        exact ⟨{ name := "pve1", status := "online" }, by simp, rfl⟩
      · intro ct hm
        rw [List.mem_singleton] at hm
        subst hm
        exact ⟨{ name := "pve1", status := "online" }, by simp, rfl⟩)

end CraftProxmox
